import Mathlib

/-!
# WASiM host bridge: reference table, value codec, resource I/O, import module

A shallow embedding of `src/resolver.go` and of the driver `main` of `src/main.go`.

* Go `uint32` values are `Nat`s kept below `2^32` by an explicit `% 2^32`;
  Go `int`/`int32` values are `Int`s; `uint64(x)` is `x % 2^64`.
* A Go `string` / `[]byte` is a list of bytes (`Fin 256`).
* The package-level variables `highestRef`, `jsRefs`, the guest memory behind
  `proc`, the host's standard output / standard error and the `log` output
  are the fields of one explicit state, `World`.
* A handler returns `none` where the Go code panics (a run-time fault).
* The calls `main` makes outside the repository (file, database, decoder, VM)
  have their outcomes given by an explicit environment, `Env`.
-/

namespace WASiM

/-! ## Bytes and Go strings -/

abbrev Byte := Fin 256

abbrev GoString := List Byte

/-- UTF-8 encoding of one code point, as the Go compiler stores a string literal. -/
def utf8Bytes (c : Nat) : List Byte :=
  if c < 0x80 then [Fin.ofNat c]
  else if c < 0x800 then [Fin.ofNat (0xC0 + c / 64), Fin.ofNat (0x80 + c % 64)]
  else if c < 0x10000 then
    [Fin.ofNat (0xE0 + c / 4096), Fin.ofNat (0x80 + c / 64 % 64), Fin.ofNat (0x80 + c % 64)]
  else
    [Fin.ofNat (0xF0 + c / 262144), Fin.ofNat (0x80 + c / 4096 % 64),
     Fin.ofNat (0x80 + c / 64 % 64), Fin.ofNat (0x80 + c % 64)]

/-- The bytes of a Go string literal. -/
def lit (s : String) : GoString :=
  (s.toList.map (fun ch => utf8Bytes ch.toNat)).flatten

/-! ## Constants (`resolver.go` 21-31, `main.go` 29-34) -/

def JSTYPE_OBJECT : Int := 0
def JSTYPE_STRING : Int := 1
def JSTYPE_SYMBOL : Int := 2
def JSTYPE_FUNCTION : Int := 3

def nanHead : Nat := 0x7FF80000
def typeMaskBits : Nat := 0x300000000

/-- The constant block `FILE_UNKNOWN = 9999999 - iota` and the three names after it. -/
def FILE_UNKNOWN : Int := 9999999 - 0
def FILE_STDIN : Int := 9999999 - 1
def FILE_STDOUT : Int := 9999999 - 2
def FILE_STDERR : Int := 9999999 - 3

/-! ## Reference table (`resolver.go` 15-49) -/

structure jsRef where
  Name : GoString
  Parent : Nat
  /-- The field `Type` of the Go struct (`Type` is a reserved word here). -/
  Typ : Int
deriving DecidableEq

/-- What `log.Print` / `log.Printf` is called with. -/
inductive LogEntry where
  | readError
  | writeError
  | shortRead (requested : Int) (got : Int)
  | cantParseURL (u : GoString)
deriving DecidableEq

structure World where
  highestRef : Nat
  jsRefs : Nat → Option jsRef
  mem : List Byte
  stdout : List Byte
  stderr : List Byte
  log : List LogEntry

/-- The package state at program start: `highestRef = uint32(8)`, `jsRefs` an
empty map; the guest memory is whatever the VM holds. -/
def World.init (mem : List Byte) : World :=
  { highestRef := 8, jsRefs := fun _ => none, mem := mem,
    stdout := [], stderr := [], log := [] }

/-- Go `uint32(x)` of a non-negative value. -/
def uint32 (x : Nat) : Nat := x % 2 ^ 32

/-- Go `uint64(x)` of an `int`. -/
def uint64 (x : Int) : Nat := (x % 2 ^ 64).toNat

/-- Function `newJSRef`: stores the record under `highestRef`, increments `highestRef`
(a `uint32`, so the increment wraps), returns the id and the record. -/
def newJSRef (w : World) (name : GoString) (jsType : Int) (parent : Nat) :
    World × Nat × jsRef :=
  let j : jsRef := { Name := name, Parent := parent, Typ := jsType }
  let n := w.highestRef
  ({ w with
      jsRefs := fun k => if k = n then some j else w.jsRefs k,
      highestRef := (w.highestRef + 1) % 2 ^ 32 }, n, j)

/-! ## Guest memory and byte order -/

/-- Go `make([]byte, n)`: a zeroed buffer; a negative length is a run-time panic. -/
def make (n : Int) : Option (List Byte) :=
  if n < 0 then none else some (List.replicate n.toNat 0)

/-- Modelled from the spec: `proc.ReadAt(p, off)` of the external VM (package
`exec` is not part of the repository), the "bounded, offset-addressed transfer"
of the spec's external interfaces. It copies into `p` the memory bytes from
`off`, as many as the memory still holds but no more than `len(p)`, and
returns the buffer, the number of bytes copied and whether it reports an error
(a short copy). An offset outside `0..len(mem)` is a slice-bounds panic. -/
def readAt (mem : List Byte) (p : List Byte) (off : Int) :
    Option (List Byte × Int × Bool) :=
  if off < 0 ∨ (mem.length : Int) < off then none
  else
    let o := off.toNat
    let length := if mem.length < p.length + o then mem.length - o else p.length
    some ((mem.drop o).take length ++ p.drop length, (length : Int),
      decide (length < p.length))

/-- Modelled from the spec: `proc.WriteAt(p, off)` of the external VM, the
counterpart of `readAt`: it copies the bytes of `p` into the memory from `off`,
as many as fit, and returns the memory, the number of bytes copied and whether
it reports an error (a short copy). -/
def writeAt (mem : List Byte) (p : List Byte) (off : Int) :
    Option (List Byte × Int × Bool) :=
  if off < 0 ∨ (mem.length : Int) < off then none
  else
    let o := off.toNat
    let length := if mem.length < p.length + o then mem.length - o else p.length
    some (mem.take o ++ p.take length ++ mem.drop (o + length), (length : Int),
      decide (length < p.length))

/-- Go `byte(v)`. -/
def byte (v : Nat) : Byte := Fin.ofNat v

/-- Go `binary.LittleEndian.Uint64(b)`; the buffers it is applied to have 8 bytes. -/
def Uint64 (b : List Byte) : Nat :=
  (b.getD 0 0).val ||| (b.getD 1 0).val <<< 8 ||| (b.getD 2 0).val <<< 16 |||
  (b.getD 3 0).val <<< 24 ||| (b.getD 4 0).val <<< 32 ||| (b.getD 5 0).val <<< 40 |||
  (b.getD 6 0).val <<< 48 ||| (b.getD 7 0).val <<< 56

/-- Go `binary.LittleEndian.PutUint64(b, v)` on an 8-byte buffer: its new contents. -/
def PutUint64 (v : Nat) : List Byte :=
  [byte v, byte (v >>> 8), byte (v >>> 16), byte (v >>> 24),
   byte (v >>> 32), byte (v >>> 40), byte (v >>> 48), byte (v >>> 56)]

/-! ## Value codec (`resolver.go` 279-295) -/

/-- The value `syscallJSValueGet` writes back:
`uint64(nanHead<<32) | uint64(valType<<32) | uint64(id)`. -/
def encodeVal (valType : Int) (id : Nat) : Nat :=
  (nanHead <<< 32) % 2 ^ 64 ||| uint64 (valType * 2 ^ 32) ||| id % 2 ^ 64

/-- The id extraction of `syscallJSValueGet`: `valID := uint32(valRaw)`. -/
def decodeID (valRaw : Nat) : Nat := uint32 valRaw

/-- The kind extraction the mask constant `typeMaskBits` is declared for:
`(v & typeMaskBits) >> 32`. -/
def decodeKind (v : Nat) : Nat := (v &&& typeMaskBits) >>> 32

/-! ## Host functions (`resolver.go` 257-438) -/

def logPrint (w : World) (e : LogEntry) : World :=
  { w with log := w.log ++ [e] }

/-- The names of the `case` list in `syscallJSValueGet`. -/
def globalFunctionNames : List GoString :=
  [lit "Object", lit "Array", lit "Int8Array", lit "Int16Array", lit "Int32Array",
   lit "Uint8Array", lit "Uint16Array", lit "Uint32Array", lit "Float32Array",
   lit "Float64Array"]

/-- The `valType` computed by `syscallJSValueGet`: the zero value of `int`
unless the value id is 5 and the name is in the `case` list. -/
def valTypeOf (valID : Nat) (propertyName : GoString) : Int :=
  if valID = 5 then
    if propertyName ∈ globalFunctionNames then JSTYPE_FUNCTION else 0
  else 0

/-- Function `syscallJSValueGet`: every error of a memory access is only logged. -/
def syscallJSValueGet (w : World)
    (returnPtr valueAddrPtr propertyNamePtr propertyNameLen paramE paramF : Int) :
    Option World := do
  let _ := paramE
  let _ := paramF
  let p0 ← make propertyNameLen
  let (p, _, err) ← readAt w.mem p0 propertyNamePtr
  let w := if err then logPrint w LogEntry.readError else w
  let propertyName := p
  let b0 ← make 8
  let (b, _, err) ← readAt w.mem b0 valueAddrPtr
  let w := if err then logPrint w LogEntry.readError else w
  let valRaw := Uint64 b
  let valID := uint32 valRaw
  let valType := valTypeOf valID propertyName
  let (w, id, _) := newJSRef w propertyName valType valID
  let val := encodeVal valType id
  let b := PutUint64 val
  let (mem, _, err) ← writeAt w.mem b returnPtr
  let w := { w with mem := mem }
  let w := if err then logPrint w LogEntry.writeError else w
  pure w

/-- How a call ends and the state it leaves behind: it returns, or it panics
part of the way through. -/
inductive CallEnd where
  | returned (w : World)
  | panicked (w : World)

/-- The state a call leaves behind, however it ends. -/
def CallEnd.world : CallEnd → World
  | CallEnd.returned w => w
  | CallEnd.panicked w => w

/-- The state of a call that returns; `none` for a call that panics. -/
def CallEnd.toOption : CallEnd → Option World
  | CallEnd.returned w => some w
  | CallEnd.panicked _ => none

/-- Function `syscallJSValueGet` again, statement by statement, this time
keeping the state at the point of a panic: `newJSRef` runs before
`proc.WriteAt`, so a call whose write panics has already stored its entry. -/
def syscallJSValueGetEnd (w : World)
    (returnPtr valueAddrPtr propertyNamePtr propertyNameLen paramE paramF : Int) :
    CallEnd :=
  let _ := paramE
  let _ := paramF
  match make propertyNameLen with
  | none => CallEnd.panicked w
  | some p0 =>
    match readAt w.mem p0 propertyNamePtr with
    | none => CallEnd.panicked w
    | some (p, _, err) =>
      let w1 := if err then logPrint w LogEntry.readError else w
      let propertyName := p
      match make 8 with
      | none => CallEnd.panicked w1
      | some b0 =>
        match readAt w1.mem b0 valueAddrPtr with
        | none => CallEnd.panicked w1
        | some (b, _, err) =>
          let w2 := if err then logPrint w1 LogEntry.readError else w1
          let valRaw := Uint64 b
          let valID := uint32 valRaw
          let valType := valTypeOf valID propertyName
          let w3 := (newJSRef w2 propertyName valType valID).1
          let id := (newJSRef w2 propertyName valType valID).2.1
          let val := encodeVal valType id
          match writeAt w3.mem (PutUint64 val) returnPtr with
          | none => CallEnd.panicked w3
          | some (mem, _, err) =>
            let w4 := { w3 with mem := mem }
            CallEnd.returned (if err then logPrint w4 LogEntry.writeError else w4)

/-- Where `resourceWrite` sends the data: `outTarget`, `nil` unless the
descriptor is one of the two cases of the `switch`. -/
inductive OutTarget where
  | nil
  | Stderr
  | Stdout
deriving DecidableEq

/-- Function `resourceWrite`: returns the new state and the `int32` result.
`fmt.Fprintf` on the `nil` file returns an error (the file's `Write` rejects a
`nil` receiver), which is logged; the host's standard streams accept every
write. The result after the write is 0 whatever `Fprintf` returned. -/
def resourceWrite (w : World) (fid dataPtr dataLen : Int) : Option (World × Int) := do
  let outTarget : OutTarget :=
    if fid = FILE_STDERR then OutTarget.Stderr
    else if fid = FILE_STDOUT then OutTarget.Stdout
    else OutTarget.nil
  let data0 ← make dataLen
  let (data, bytesRead, err) ← readAt w.mem data0 dataPtr
  if err then
    pure (logPrint w LogEntry.readError, 1)
  else if bytesRead ≠ dataLen then
    pure (logPrint w (LogEntry.shortRead dataLen bytesRead), 2)
  else
    match outTarget with
    | OutTarget.Stderr => pure ({ w with stderr := w.stderr ++ data }, 0)
    | OutTarget.Stdout => pure ({ w with stdout := w.stdout ++ data }, 0)
    | OutTarget.nil => pure (logPrint w LogEntry.writeError, 0)

/-! ## Sequences of calls on the reference table -/

/-- The ids returned by successive `newJSRef` calls, one call per argument
triple `(name, jsType, parent)`. -/
def allocIds (w : World) : List (GoString × Int × Nat) → List Nat
  | [] => []
  | a :: rest =>
    (newJSRef w a.1 a.2.1 a.2.2).2.1 :: allocIds (newJSRef w a.1 a.2.1 a.2.2).1 rest

/-- A call that touches the reference table. -/
inductive Call where
  | newJSRef (name : GoString) (jsType : Int) (parent : Nat)
  | syscallJSValueGet
      (returnPtr valueAddrPtr propertyNamePtr propertyNameLen paramE paramF : Int)

/-- The state after one call (`none`: the call panics). -/
def Call.exec (w : World) : Call → Option World
  | Call.newJSRef name jsType parent => some (WASiM.newJSRef w name jsType parent).1
  | Call.syscallJSValueGet returnPtr valueAddrPtr propertyNamePtr propertyNameLen paramE paramF =>
    WASiM.syscallJSValueGet w returnPtr valueAddrPtr propertyNamePtr propertyNameLen paramE paramF

/-- The state after a sequence of calls. -/
def runCalls (w : World) : List Call → Option World
  | [] => some w
  | c :: cs => (c.exec w).bind (fun w' => runCalls w' cs)

/-- The bytes a successful `proc.ReadAt` of `propertyNameLen` bytes at
`propertyNamePtr` yields: the property name `syscallJSValueGet` reads. -/
def nameAt (mem : List Byte) (propertyNamePtr propertyNameLen : Int) : GoString :=
  (mem.drop propertyNamePtr.toNat).take propertyNameLen.toNat

/-- The 64-bit value a successful read of 8 bytes at `valueAddrPtr` decodes to. -/
def valRawAt (mem : List Byte) (valueAddrPtr : Int) : Nat :=
  Uint64 ((mem.drop valueAddrPtr.toNat).take 8)

/-- The 8 bytes of the memory at `returnPtr`. -/
def bytesAt (mem : List Byte) (returnPtr : Int) : List Byte :=
  (mem.drop returnPtr.toNat).take 8

/-! ## Import module synthesizer (`resolver.go` 51-255) -/

/-- The value types of package `wasm`. -/
inductive ValueType where
  | I32
  | I64
  | F32
  | F64
deriving DecidableEq

structure FunctionSig where
  Form : Nat
  ParamTypes : List ValueType
  ReturnTypes : List ValueType
deriving DecidableEq

/-- The host functions of `resolver.go` that `reflect.ValueOf` is applied to. -/
inductive HostFn where
  | ioGetStderr
  | ioGetStdout
  | resourceOpen
  | resourceRead
  | resourceWrite
  | syscallJSValueCall
  | syscallJSValueGet
  | syscallJSValuePrepareString
  | syscallJSValueLoadString
  | syscallJSStringVal
  | runtimeTicks
  | wagonImportStub
deriving DecidableEq

/-- The Go numeric types of handler arguments and results. -/
inductive GoKind where
  | int32
  | uint32
  | int64
  | uint64
  | float32
  | float64
deriving DecidableEq

/-- The WebAssembly value type a Go numeric type is passed as. -/
def GoKind.valueType : GoKind → ValueType
  | GoKind.int32 => ValueType.I32
  | GoKind.uint32 => ValueType.I32
  | GoKind.int64 => ValueType.I64
  | GoKind.uint64 => ValueType.I64
  | GoKind.float32 => ValueType.F32
  | GoKind.float64 => ValueType.F64

/-- The argument types of each handler's `func` declaration, after the leading
`proc *exec.Process`. -/
def HostFn.params : HostFn → List GoKind
  | HostFn.ioGetStderr => []
  | HostFn.ioGetStdout => []
  | HostFn.resourceOpen => [GoKind.uint32, GoKind.uint32]
  | HostFn.resourceRead => [GoKind.int32, GoKind.int32, GoKind.int32]
  | HostFn.resourceWrite => [GoKind.int32, GoKind.int32, GoKind.int32]
  | HostFn.syscallJSValueCall => List.replicate 9 GoKind.int32
  | HostFn.syscallJSValueGet => List.replicate 6 GoKind.int32
  | HostFn.syscallJSValuePrepareString => List.replicate 6 GoKind.int32
  | HostFn.syscallJSValueLoadString => List.replicate 6 GoKind.int32
  | HostFn.syscallJSStringVal => List.replicate 6 GoKind.int32
  | HostFn.runtimeTicks => []
  | HostFn.wagonImportStub => [GoKind.int32]

/-- The result types of each handler's `func` declaration. -/
def HostFn.results : HostFn → List GoKind
  | HostFn.ioGetStderr => [GoKind.int32]
  | HostFn.ioGetStdout => [GoKind.int32]
  | HostFn.resourceOpen => [GoKind.int32]
  | HostFn.resourceRead => [GoKind.int32]
  | HostFn.resourceWrite => [GoKind.int32]
  | HostFn.syscallJSValueCall => []
  | HostFn.syscallJSValueGet => []
  | HostFn.syscallJSValuePrepareString => []
  | HostFn.syscallJSValueLoadString => []
  | HostFn.syscallJSStringVal => []
  | HostFn.runtimeTicks => [GoKind.int32]
  | HostFn.wagonImportStub => []

/-- A `wasm.Function`: `Sig` is the index `i` of `&m.Types.Entries[i]`. -/
structure Function where
  Sig : Nat
  Host : HostFn
deriving DecidableEq

/-- The `wasm.External` kinds. -/
inductive External where
  | ExternalFunction
  | ExternalTable
  | ExternalMemory
  | ExternalGlobal
deriving DecidableEq

structure ExportEntry where
  FieldStr : GoString
  Kind : External
  Index : Nat
deriving DecidableEq

/-- A `wasm.Module`, the three sections `funcResolver` fills; `Export` lists
the map literal's keys with their entries. -/
structure Module where
  Types : List FunctionSig
  FunctionIndexSpace : List Function
  Export : List (GoString × ExportEntry)
deriving DecidableEq

/-- The module of `case "env"`. -/
def envModule : Module :=
  { Types :=
      [ { Form := 0, ParamTypes := [], ReturnTypes := [ValueType.I32] },
        { Form := 1, ParamTypes := [ValueType.I32], ReturnTypes := [ValueType.I32] },
        { Form := 2, ParamTypes := [ValueType.I32, ValueType.I32],
          ReturnTypes := [ValueType.I32] },
        { Form := 3, ParamTypes := [ValueType.I32, ValueType.I32, ValueType.I32],
          ReturnTypes := [ValueType.I32] },
        { Form := 4,
          ParamTypes := [ValueType.I32, ValueType.I32, ValueType.I32, ValueType.I32],
          ReturnTypes := [] },
        { Form := 5,
          ParamTypes := [ValueType.I32, ValueType.I32, ValueType.I32, ValueType.I32,
            ValueType.I32],
          ReturnTypes := [] },
        { Form := 6,
          ParamTypes := [ValueType.I32, ValueType.I32, ValueType.I32, ValueType.I32,
            ValueType.I32, ValueType.I32],
          ReturnTypes := [] },
        { Form := 7,
          ParamTypes := [ValueType.I32, ValueType.I32, ValueType.I32, ValueType.I32,
            ValueType.I32, ValueType.I32, ValueType.I32, ValueType.I32, ValueType.I32],
          ReturnTypes := [] },
        { Form := 8, ParamTypes := [], ReturnTypes := [ValueType.F64] } ],
    FunctionIndexSpace :=
      [ { Sig := 0, Host := HostFn.ioGetStderr },
        { Sig := 0, Host := HostFn.ioGetStdout },
        { Sig := 2, Host := HostFn.resourceOpen },
        { Sig := 3, Host := HostFn.resourceRead },
        { Sig := 3, Host := HostFn.resourceWrite },
        { Sig := 7, Host := HostFn.syscallJSValueCall },
        { Sig := 6, Host := HostFn.syscallJSValueGet },
        { Sig := 4, Host := HostFn.syscallJSValuePrepareString },
        { Sig := 6, Host := HostFn.syscallJSValueLoadString },
        { Sig := 5, Host := HostFn.syscallJSStringVal },
        { Sig := 8, Host := HostFn.runtimeTicks } ],
    Export :=
      [ (lit "io_get_stderr",
          { FieldStr := lit "io_get_stdout", Kind := External.ExternalFunction, Index := 0 }),
        (lit "io_get_stdout",
          { FieldStr := lit "io_get_stdout", Kind := External.ExternalFunction, Index := 1 }),
        (lit "resource_open",
          { FieldStr := lit "resource_open", Kind := External.ExternalFunction, Index := 2 }),
        (lit "resource_read",
          { FieldStr := lit "resource_read", Kind := External.ExternalFunction, Index := 3 }),
        (lit "resource_write",
          { FieldStr := lit "resource_write", Kind := External.ExternalFunction, Index := 4 }),
        (lit "syscall/js.valueCall",
          { FieldStr := lit "syscall/js.valueCall", Kind := External.ExternalFunction,
            Index := 5 }),
        (lit "syscall/js.valueGet",
          { FieldStr := lit "syscall/js.valueGet", Kind := External.ExternalFunction,
            Index := 6 }),
        (lit "syscall/js.valuePrepareString",
          { FieldStr := lit "syscall/js.valuePrepareString",
            Kind := External.ExternalFunction, Index := 7 }),
        (lit "syscall/js.valueLoadString",
          { FieldStr := lit "syscall/js.valueLoadString", Kind := External.ExternalFunction,
            Index := 8 }),
        (lit "syscall/js.stringVal",
          { FieldStr := lit "syscall/js.stringVal", Kind := External.ExternalFunction,
            Index := 9 }),
        (lit "runtime.ticks",
          { FieldStr := lit "runtime.ticks", Kind := External.ExternalFunction,
            Index := 10 }) ] }

/-- The module of `case "imports"`. -/
def importsModule : Module :=
  { Types := [ { Form := 0, ParamTypes := [ValueType.I32], ReturnTypes := [] } ],
    FunctionIndexSpace := [ { Sig := 0, Host := HostFn.wagonImportStub } ],
    Export :=
      [ (lit "imported_func",
          { FieldStr := lit "imported_func", Kind := External.ExternalFunction,
            Index := 0 }) ] }

/-- Function `funcResolver`: `Except.ok m` is the return `(m, nil)`, `Except.error e` the
return `(nil, fmt.Errorf(e))`. -/
def funcResolver (name : GoString) : Except GoString Module :=
  if name = lit "env" then Except.ok envModule
  else if name = lit "imports" then Except.ok importsModule
  else Except.error (lit "unknown function requested")

/-- The signature a function-index-space entry declares, `*f.Sig`. -/
def Module.sigOf (m : Module) (f : Function) : Option FunctionSig :=
  m.Types[f.Sig]?

/-- Whether the signature an entry declares has the parameter and result types
of the handler bound to it. -/
def Module.sigMatchesHost (m : Module) (f : Function) : Bool :=
  match m.sigOf f with
  | some sig =>
    decide (sig.ParamTypes = f.Host.params.map GoKind.valueType) &&
    decide (sig.ReturnTypes = f.Host.results.map GoKind.valueType)
  | none => false

/-! ## Stream descriptors and `resourceOpen` (`resolver.go` 325-382) -/

/-- Go `int32(x)` of an `int`: the low 32 bits, read as a signed number. -/
def int32 (x : Int) : Int := (x + 2 ^ 31) % 2 ^ 32 - 2 ^ 31

/-- Function `ioGetStderr`. -/
def ioGetStderr (_w : World) : Int := FILE_STDERR

/-- Function `ioGetStdout`. -/
def ioGetStdout (_w : World) : Int := FILE_STDOUT

/-- Function `resourceOpen`: returns the new state and the `int32` result.
`urlPtr` and `urlLen` are `uint32`s. The parameter `urlParse` stands for
`url.Parse` of the Go library: whether it returns without an error. Every line
after the parse that would look at the scheme is commented out in the source,
so a URL that parses gets `FILE_UNKNOWN`. -/
def resourceOpen (urlParse : GoString → Bool) (w : World) (urlPtr urlLen : Nat) :
    Option (World × Int) := do
  let data0 ← make (urlLen : Int)
  let (data, bytesRead, err) ← readAt w.mem data0 (urlPtr : Int)
  if err then
    pure (logPrint w LogEntry.readError, int32 bytesRead)
  else
    let u := data
    if urlParse u then
      pure (w, FILE_UNKNOWN)
    else
      pure (logPrint w (LogEntry.cantParseURL u), 0)

/-! ## The parser `url.Parse` of the Go library

`url.Parse` is not part of the repository; `resourceOpen` takes it as a
parameter. Where a statement needs a concrete parser it uses `urlParseOK`, which
follows `Parse`, `parse`, `getScheme`, `parseAuthority`, `parseHost` and
`unescape` of package `net/url` as far as their error returns go. One check
is left out: the inspection of the address inside an IPv6 literal `[...]` that
recent releases of the library add. -/

/-- The modes of `unescape` that `url.Parse` uses. -/
inductive Encoding where
  | encodePath
  | encodeUserPassword
  | encodeHost
  | encodeZone
  | encodeFragment
deriving DecidableEq

/-- Go `stringContainsCTLByte`. -/
def stringContainsCTLByte (s : GoString) : Bool :=
  s.any (fun b => decide (b.val < 0x20 ∨ b.val = 0x7F))

/-- Go `strings.Cut(s, sep)` for a separator of one byte: the text before the
first separator, the text after it, and whether there is one. -/
def cut (sep : Byte) : GoString → GoString × GoString × Bool
  | [] => ([], [], false)
  | c :: rest =>
    if c = sep then ([], rest, true)
    else ((c :: (cut sep rest).1), (cut sep rest).2.1, (cut sep rest).2.2)

/-- Go `strings.LastIndex(s, sep)` for a separator of one byte, as the text
before the last separator and the text after it; `none` for the index -1. -/
def cutLast (sep : Byte) (s : GoString) : Option (GoString × GoString) :=
  if (cut sep s.reverse).2.2 then
    some ((cut sep s.reverse).2.1.reverse, (cut sep s.reverse).1.reverse)
  else none

/-- An ASCII letter. -/
def isLetter (c : Byte) : Bool :=
  decide ((0x61 ≤ c.val ∧ c.val ≤ 0x7A) ∨ (0x41 ≤ c.val ∧ c.val ≤ 0x5A))

/-- An ASCII digit. -/
def isDigit (c : Byte) : Bool := decide (0x30 ≤ c.val ∧ c.val ≤ 0x39)

/-- Go `ishex`. -/
def ishex (c : Byte) : Bool :=
  isDigit c || decide (0x61 ≤ c.val ∧ c.val ≤ 0x66) || decide (0x41 ≤ c.val ∧ c.val ≤ 0x46)

/-- Go `unhex`. -/
def unhex (c : Byte) : Nat :=
  if isDigit c then c.val - 0x30
  else if 0x61 ≤ c.val ∧ c.val ≤ 0x66 then c.val - 0x61 + 10
  else if 0x41 ≤ c.val ∧ c.val ≤ 0x46 then c.val - 0x41 + 10
  else 0

/-- Go `getScheme`, its loop from index `i`, with `s` the text from `i` on:
`none` is the error "missing protocol scheme", otherwise the scheme and the
rest. The bytes `0x2B 0x2D 0x2E 0x3A` are `+ - . :`. -/
def getSchemeFrom (rawURL : GoString) : Nat → GoString → Option (GoString × GoString)
  | _, [] => some ([], rawURL)
  | i, c :: rest =>
    if isLetter c then getSchemeFrom rawURL (i + 1) rest
    else if isDigit c || c = 0x2B || c = 0x2D || c = 0x2E then
      if i = 0 then some ([], rawURL) else getSchemeFrom rawURL (i + 1) rest
    else if c = 0x3A then
      if i = 0 then none else some (rawURL.take i, rest)
    else some ([], rawURL)

/-- Go `getScheme`. -/
def getScheme (rawURL : GoString) : Option (GoString × GoString) :=
  getSchemeFrom rawURL 0 rawURL

/-- Go `shouldEscape(c, encodeHost)`: the bytes a host may hold unescaped are
the letters, the digits, the seventeen bytes of the host list of the library
(in its order, from the exclamation mark to the double quote) and the four
marks `- _ . ~`. -/
def shouldEscapeHost (c : Byte) : Bool :=
  if isLetter c || isDigit c then false
  else if c ∈ ([0x21, 0x24, 0x26, 0x27, 0x28, 0x29, 0x2A, 0x2B, 0x2C, 0x3B, 0x3D, 0x3A,
      0x5B, 0x5D, 0x3C, 0x3E, 0x22] : List Byte) then false
  else if c ∈ ([0x2D, 0x5F, 0x2E, 0x7E] : List Byte) then false
  else true

/-- Whether Go `unescape(s, mode)` returns without an error. The byte `0x25` is
the percent sign, `0x2B` the plus sign, and `0x32 0x35` are the digits of `%25`. -/
def unescapeOK (mode : Encoding) : GoString → Bool
  | [] => true
  | c :: rest =>
    if c = 0x25 then
      match rest with
      | a :: b :: rest2 =>
        if ishex a && ishex b then
          if mode = Encoding.encodeHost ∧ unhex a < 8 ∧ ¬ (a = 0x32 ∧ b = 0x35) then false
          else if mode = Encoding.encodeZone ∧ ¬ (a = 0x32 ∧ b = 0x35) ∧
              unhex a * 16 + unhex b ≠ 0x20 ∧
              shouldEscapeHost (Fin.ofNat (unhex a * 16 + unhex b)) = true then false
          else unescapeOK mode rest2
        else false
      | _ => false
    else if c = 0x2B then unescapeOK mode rest
    else if (mode = Encoding.encodeHost ∨ mode = Encoding.encodeZone) ∧ c.val < 0x80 ∧
        shouldEscapeHost c = true then false
    else unescapeOK mode rest

/-- Go `validOptionalPort`. -/
def validOptionalPort (port : GoString) : Bool :=
  match port with
  | [] => true
  | c :: rest => c = 0x3A && rest.all isDigit

/-- Go `validUserinfo`: letters, digits and the eighteen bytes of its `case`
list, from the hyphen to the at sign. -/
def validUserinfo (s : GoString) : Bool :=
  s.all (fun r => isLetter r || isDigit r ||
    decide (r ∈ ([0x2D, 0x2E, 0x5F, 0x3A, 0x7E, 0x21, 0x24, 0x26, 0x27, 0x28, 0x29, 0x2A,
      0x2B, 0x2C, 0x3B, 0x3D, 0x25, 0x40] : List Byte)))

/-- Go `strings.Index(s, "%25")`, as the text before the first `%25` of `s` and
the text from it on; `none` for the index -1. -/
def cutZone : GoString → Option (GoString × GoString)
  | [] => none
  | c :: rest =>
    if (c :: rest).take 3 = lit "%25" then some ([], c :: rest)
    else (cutZone rest).map (fun r => (c :: r.1, r.2))

/-- Whether Go `parseHost` returns without an error. The byte `0x5D` is the
closing bracket. -/
def parseHostOK (host : GoString) : Bool :=
  if host.take 1 = lit "[" then
    match cutLast 0x5D host with
    | none => false
    | some (before, colonPort) =>
      if !validOptionalPort colonPort then false
      else
        match cutZone before with
        | some (host1, zone) =>
          unescapeOK Encoding.encodeHost host1 && unescapeOK Encoding.encodeZone zone &&
          unescapeOK Encoding.encodeHost (0x5D :: colonPort)
        | none => unescapeOK Encoding.encodeHost host
  else
    match cutLast 0x3A host with
    | some (_, port) =>
      if !validOptionalPort (0x3A :: port) then false
      else unescapeOK Encoding.encodeHost host
    | none => unescapeOK Encoding.encodeHost host

/-- Whether Go `parseAuthority` returns without an error. The byte `0x40` is
the at sign. -/
def parseAuthorityOK (authority : GoString) : Bool :=
  match cutLast 0x40 authority with
  | none => parseHostOK authority
  | some (userinfo, host) =>
    if !parseHostOK host then false
    else if !validUserinfo userinfo then false
    else if (cut 0x3A userinfo).2.2 then
      unescapeOK Encoding.encodeUserPassword (cut 0x3A userinfo).1 &&
      unescapeOK Encoding.encodeUserPassword (cut 0x3A userinfo).2.1
    else unescapeOK Encoding.encodeUserPassword userinfo

/-- Whether Go `parse(rawURL, false)` returns without an error. The bytes
`0x3F 0x2F 0x3A` are the question mark, the slash and the colon. -/
def parseOK (rawURL : GoString) : Bool :=
  if stringContainsCTLByte rawURL then false
  else if rawURL = lit "*" then true
  else
    match getScheme rawURL with
    | none => false
    | some (scheme, rest0) =>
      let rest := (cut 0x3F rest0).1
      if rest.take 1 ≠ lit "/" ∧ scheme ≠ [] then true
      else if rest.take 1 ≠ lit "/" ∧ 0x3A ∈ (cut 0x2F rest).1 then false
      else if (scheme ≠ [] ∨ rest.take 3 ≠ lit "///") ∧ rest.take 2 = lit "//" then
        let authority := (cut 0x2F (rest.drop 2)).1
        let rest2 :=
          if (cut 0x2F (rest.drop 2)).2.2 then 0x2F :: (cut 0x2F (rest.drop 2)).2.1 else []
        parseAuthorityOK authority && unescapeOK Encoding.encodePath rest2
      else unescapeOK Encoding.encodePath rest

/-- Whether Go `url.Parse(rawURL)` returns without an error: the text before
the first `#` (byte `0x23`) goes through `parse`, the fragment after it through
`unescape`. -/
def urlParseOK (rawURL : GoString) : Bool :=
  parseOK (cut 0x23 rawURL).1 &&
  ((cut 0x23 rawURL).2.1 = [] || unescapeOK Encoding.encodeFragment (cut 0x23 rawURL).2.1)

/-! ## Run driver (`main.go` 36-125) -/

/-- What `main` reads of an entry of `m.FunctionIndexSpace`. -/
structure GuestFunction where
  Name : GoString
  numReturns : Nat
  numParams : Nat
deriving DecidableEq

/-- What `main` reads of the module `wasm.ReadModule` returns. `Export` is
`none` for a nil `m.Export`; otherwise it lists `m.Export.Entries` in the order
in which the `range` loop of this run visits the map. -/
structure GuestModule where
  FunctionIndexSpace : List GuestFunction
  Export : Option (List (GoString × ExportEntry))

/-- The result of one `pg.Exec` insert. -/
inductive InsertOutcome where
  | error
  | rowsAffected (n : Nat)
deriving DecidableEq

/-- The outcomes of the external calls of one run of `main`. -/
structure Env where
  nArgs : Nat
  readFileOK : Bool
  connectOK : Bool
  runNumber : Option Int
  readModule : Option GuestModule
  insert : Nat → InsertOutcome
  newVMOK : Bool
  execCodeOK : Nat → Bool

/-- What `main` logs with `log.Print` / `log.Printf`. -/
inductive DriverLog where
  | executionRun (dbRun : Int)
  | insertError (functionNum : Nat)
  | wrongRows (numRows : Nat) (functionName : GoString)
deriving DecidableEq

/-- How `main` ends. -/
inductive Exit where
  | fatalArgs
  | panicReadFile
  | panicConnect
  | fatalRunNumber
  | panicReadModule
  | returnedAfterInsertError
  | fatalNewVM
  | panicNilExport
  | panicNoMain
  | panicExecCode
  | finished
deriving DecidableEq

/-- What a run of `main` has done when it ends. -/
structure DriverResult where
  exit : Exit
  log : List DriverLog
  vmConstructed : Bool
  executed : Option Nat
deriving DecidableEq

/-- The loop "Add the function info to the database", from function number
`i` on: `false` when an insert returned an error (the loop body then logs and
executes `return`), with the log. -/
def addFunctionInfo (insert : Nat → InsertOutcome) :
    Nat → List GuestFunction → List DriverLog → Bool × List DriverLog
  | _, [], log => (true, log)
  | i, j :: rest, log =>
    match insert i with
    | InsertOutcome.error => (false, log ++ [DriverLog.insertError i])
    | InsertOutcome.rowsAffected numRows =>
      if numRows ≠ 1 then
        addFunctionInfo insert (i + 1) rest (log ++ [DriverLog.wrongRows numRows j.Name])
      else addFunctionInfo insert (i + 1) rest log

/-- The condition of the `if` in the loop "Locate the main function to run". -/
def isEntry (name : GoString) (entry : ExportEntry) : Bool :=
  (decide (name = lit "main") && decide (entry.FieldStr = lit "main")) ||
  (decide (name = lit "cwa_main") && decide (entry.FieldStr = lit "cwa_main"))

/-- The loop "Locate the main function to run" over the entries in the order
the `range` visits them: `mainID` when `foundMain` is set, `none` otherwise. -/
def locateMain : List (GoString × ExportEntry) → Option Nat
  | [] => none
  | (name, entry) :: rest =>
    if isEntry name entry then some entry.Index else locateMain rest

/-- Function `main`, with `disassembleDwarf = false`. -/
def main (env : Env) : DriverResult :=
  if env.nArgs ≠ 2 then
    { exit := Exit.fatalArgs, log := [], vmConstructed := false, executed := none }
  else if !env.readFileOK then
    { exit := Exit.panicReadFile, log := [], vmConstructed := false, executed := none }
  else if !env.connectOK then
    { exit := Exit.panicConnect, log := [], vmConstructed := false, executed := none }
  else
    match env.runNumber with
    | none =>
      { exit := Exit.fatalRunNumber, log := [], vmConstructed := false, executed := none }
    | some dbRun =>
      let log := [DriverLog.executionRun dbRun]
      match env.readModule with
      | none =>
        { exit := Exit.panicReadModule, log := log, vmConstructed := false, executed := none }
      | some m =>
        match addFunctionInfo env.insert 0 m.FunctionIndexSpace log with
        | (false, log) =>
          { exit := Exit.returnedAfterInsertError, log := log, vmConstructed := false,
            executed := none }
        | (true, log) =>
          if !env.newVMOK then
            { exit := Exit.fatalNewVM, log := log, vmConstructed := false, executed := none }
          else
            match m.Export with
            | none =>
              { exit := Exit.panicNilExport, log := log, vmConstructed := true,
                executed := none }
            | some entries =>
              match locateMain entries with
              | none =>
                { exit := Exit.panicNoMain, log := log, vmConstructed := true,
                  executed := none }
              | some mainID =>
                if env.execCodeOK mainID then
                  { exit := Exit.finished, log := log, vmConstructed := true,
                    executed := some mainID }
                else
                  { exit := Exit.panicExecCode, log := log, vmConstructed := true,
                    executed := some mainID }

/-! ## Sample memories and runs -/

/-- A guest memory: the boxed reference to the global (id 5) at 0, the name
`Array` at 8, room for the result at 13. -/
def globalMem : List Byte :=
  [0x05, 0x00, 0x00, 0x00, 0x00, 0x00, 0xF8, 0x7F] ++ lit "Array" ++ List.replicate 8 0

/-- The state after `syscallJSValueGet(proc, 13, 0, 8, 5, 0, 0)` on `globalMem`. -/
def globalAfter : World :=
  (syscallJSValueGet (World.init globalMem) 13 0 8 5 0 0).getD (World.init globalMem)

/-- A guest memory: the double 3.14 (`0x40091EB851EB851F`) at 0, the name `x`
at 8, room for the result at 9. -/
def doubleMem : List Byte :=
  [0x1F, 0x85, 0xEB, 0x51, 0xB8, 0x1E, 0x09, 0x40] ++ lit "x" ++ List.replicate 8 0

/-- A guest memory of 153 pages of 64 KiB. -/
def pagesMem : List Byte := List.replicate 10027008 0

/-- A guest memory that holds the URL `http://example.com/` at 0. -/
def httpMem : List Byte := lit "http://example.com/"

/-- A guest memory that holds the text `not a url` at 0. -/
def notAURLMem : List Byte := lit "not a url"

/-- A guest memory that holds the text `%zz` at 0, a percent sign that no two
hexadecimal digits follow. -/
def badEscapeMem : List Byte := lit "%zz"

/-- The export entry of a function `main`. -/
def entryMain : GoString × ExportEntry :=
  (lit "main", { FieldStr := lit "main", Kind := External.ExternalFunction, Index := 1 })

/-- The export entry of a function `cwa_main`. -/
def entryCwaMain : GoString × ExportEntry :=
  (lit "cwa_main",
    { FieldStr := lit "cwa_main", Kind := External.ExternalFunction, Index := 2 })

/-- The export entry of a function `memory_size`, not an entry point. -/
def entryOther : GoString × ExportEntry :=
  (lit "memory_size",
    { FieldStr := lit "memory_size", Kind := External.ExternalFunction, Index := 0 })

/-- A run in which every external call succeeds but the inserts, whose outcome
is `ins`, on a module of three functions whose export map is visited in the
order `entries`. -/
def sampleEnv (ins : InsertOutcome) (entries : List (GoString × ExportEntry)) : Env :=
  { nArgs := 2, readFileOK := true, connectOK := true, runNumber := some 7,
    readModule := some
      { FunctionIndexSpace :=
          [ { Name := lit "memory_size", numReturns := 1, numParams := 0 },
            { Name := lit "main", numReturns := 0, numParams := 0 },
            { Name := lit "cwa_main", numReturns := 0, numParams := 0 } ],
        Export := some entries },
    insert := fun _ => ins, newVMOK := true, execCodeOK := fun _ => true }

/-! ## Predicates on runs of the driver -/

/-- The run gets as far as the loop that locates the entry point, and that loop
visits the export entries in the order `entries`: the command line, the file,
the database connection, the run number and the module are there, no insert
returns an error, and the VM is constructed. -/
def Env.reachesEntry (env : Env) (entries : List (GoString × ExportEntry)) : Prop :=
  env.nArgs = 2 ∧ env.readFileOK = true ∧ env.connectOK = true ∧
  ∃ dbRun m, env.runNumber = some dbRun ∧ env.readModule = some m ∧
    (∀ i, i < m.FunctionIndexSpace.length → env.insert i ≠ InsertOutcome.error) ∧
    env.newVMOK = true ∧ m.Export = some entries

/-- The line `main` logs for the insert of function number `p.1`, the
function `p.2`, when the insert returns no error but a row count other than 1;
`none` when it logs no such line. -/
def wrongRowsLine (insert : Nat → InsertOutcome) (p : Nat × GuestFunction) :
    Option DriverLog :=
  match insert p.1 with
  | InsertOutcome.rowsAffected numRows =>
    if numRows ≠ 1 then some (DriverLog.wrongRows numRows p.2.Name) else none
  | InsertOutcome.error => none

/-- An export named `n`: an entry of the export map whose key and whose
`FieldStr` are both `n`, the two things the loop of `main` compares. -/
def exportNamed (n : GoString) (p : GoString × ExportEntry) : Prop :=
  p.1 = n ∧ p.2.FieldStr = n

/-! ## Theorems -/

/-! ### Reference table: allocation order -/

theorem allocIds_eq_map (args : List (GoString × Int × Nat)) :
    ∀ w : World, w.highestRef < 2 ^ 32 →
      allocIds w args =
        (List.range args.length).map (fun k => (w.highestRef + k) % 2 ^ 32) := by
  induction args with
  | nil => intro w _; rfl
  | cons a rest ih =>
    intro w hw
    have hlt : (w.highestRef + 1) % 2 ^ 32 < 2 ^ 32 := Nat.mod_lt _ (by norm_num)
    rw [allocIds, ih _ (by simpa [newJSRef] using hlt)]
    rw [List.length_cons, List.range_succ_eq_map, List.map_cons, List.map_map]
    congr 1
    · simp only [newJSRef, Nat.add_zero]
      omega
    · apply List.map_congr_left
      intro k _
      simp only [newJSRef, Function.comp, Nat.succ_eq_add_one]
      omega

/-- C1 (as amended): from the initial table, as long as no more than `2^32 - 8`
calls are made, the ids returned by successive `newJSRef` calls are exactly
`8, 9, ..., 7+N` in that order, strictly increasing, none below 8. -/
theorem newJSRef_ids_sequential (mem : List Byte) (args : List (GoString × Int × Nat))
    (hN : args.length ≤ 2 ^ 32 - 8) :
    allocIds (World.init mem) args = List.range' 8 args.length ∧
    (allocIds (World.init mem) args).Pairwise (fun a b => a < b) ∧
    ∀ i ∈ allocIds (World.init mem) args, 8 ≤ i := by
  have h : allocIds (World.init mem) args = List.range' 8 args.length := by
    rw [allocIds_eq_map args _ (by simp [World.init]), List.range'_eq_map_range]
    apply List.map_congr_left
    intro k hk
    have hk' : k < args.length := List.mem_range.mp hk
    simp only [World.init]
    omega
  refine ⟨h, ?_, ?_⟩
  · rw [h]; exact List.pairwise_lt_range' _ _
  · rw [h]; intro i hi
    exact (List.mem_range'_1.mp hi).1

theorem newJSRef_ids_sequential_witness :
    [(lit "a", JSTYPE_OBJECT, 5), (lit "b", JSTYPE_FUNCTION, 8),
      (lit "c", JSTYPE_STRING, 0)].length ≤ 2 ^ 32 - 8 ∧
    (allocIds (World.init [])
        [(lit "a", JSTYPE_OBJECT, 5), (lit "b", JSTYPE_FUNCTION, 8),
          (lit "c", JSTYPE_STRING, 0)] = [8, 9, 10] ∧
      (allocIds (World.init [])
        [(lit "a", JSTYPE_OBJECT, 5), (lit "b", JSTYPE_FUNCTION, 8),
          (lit "c", JSTYPE_STRING, 0)]).Pairwise (fun a b => a < b) ∧
      ∀ i ∈ allocIds (World.init [])
        [(lit "a", JSTYPE_OBJECT, 5), (lit "b", JSTYPE_FUNCTION, 8),
          (lit "c", JSTYPE_STRING, 0)], 8 ≤ i) :=
  ⟨by decide,
    newJSRef_ids_sequential []
      [(lit "a", JSTYPE_OBJECT, 5), (lit "b", JSTYPE_FUNCTION, 8), (lit "c", JSTYPE_STRING, 0)]
      (by decide)⟩

/-- C1 (counterexample): `highestRef` is a `uint32`; the call number `2^32 - 7`
returns the id 0, a sentinel, where the claim has `2^32`. -/
theorem newJSRef_ids_wrap :
    allocIds (World.init []) (List.replicate 4294967289 ([], 0, 0)) ≠
      List.range' 8 4294967289 ∧
    0 ∈ allocIds (World.init []) (List.replicate 4294967289 ([], 0, 0)) := by
  have h := allocIds_eq_map (List.replicate 4294967289 ([], 0, 0)) (World.init [])
    (by simp [World.init])
  rw [List.length_replicate] at h
  have h0 : (allocIds (World.init []) (List.replicate 4294967289 ([], 0, 0)))[4294967288]?
      = some 0 := by
    rw [h, List.getElem?_map, List.getElem?_range (by norm_num)]
    rfl
  constructor
  · intro heq
    rw [heq, List.getElem?_range' _ _ (by norm_num)] at h0
    revert h0
    norm_num
  · exact List.mem_iff_getElem?.mpr ⟨_, h0⟩

/-! ### Value codec -/

theorem and_shiftRight (a b i : Nat) : (a &&& b) >>> i = a >>> i &&& b >>> i := by
  apply Nat.eq_of_testBit_eq
  intro j
  simp only [Nat.testBit_shiftRight, Nat.testBit_and]

theorem encodeVal_eq (k : Nat) (id : Nat) (hk : k < 4) (hid : id < 2 ^ 32) :
    encodeVal (k : Int) id = 2 ^ 32 * (nanHead + k) + id := by
  have hid' : id % 2 ^ 64 = id := Nat.mod_eq_of_lt (by omega)
  have hc : (nanHead <<< 32) % 2 ^ 64 ||| uint64 ((k : Int) * 2 ^ 32)
      = 2 ^ 32 * (nanHead + k) := by
    have : k = 0 ∨ k = 1 ∨ k = 2 ∨ k = 3 := by omega
    rcases this with h | h | h | h <;> subst h <;> rfl
  rw [encodeVal, hid', hc]
  exact (Nat.mul_add_lt_is_or hid _).symm

theorem decode_encode (k : Nat) (id : Nat) (hk : k < 4) (hid : id < 2 ^ 32) :
    decodeID (encodeVal (k : Int) id) = id ∧ decodeKind (encodeVal (k : Int) id) = k := by
  rw [encodeVal_eq k id hk hid]
  constructor
  · simp only [decodeID, uint32]; omega
  · have hs : (2 ^ 32 * (nanHead + k) + id) >>> 32 = nanHead + k := by
      rw [Nat.shiftRight_eq_div_pow]; omega
    rw [decodeKind, and_shiftRight, hs]
    have : k = 0 ∨ k = 1 ∨ k = 2 ∨ k = 3 := by omega
    rcases this with h | h | h | h <;> subst h <;> rfl

/-- C2: for each of the four kinds and every id below `2^32`, the value
`(nanHead<<32) | (kind<<32) | id` decodes back to the pair: `uint32(v)` is the
id and `(v & typeMaskBits) >> 32` is the kind. -/
theorem encode_decode_roundtrip (kind : Int) (id : Nat)
    (hkind : kind = JSTYPE_OBJECT ∨ kind = JSTYPE_STRING ∨ kind = JSTYPE_SYMBOL ∨
      kind = JSTYPE_FUNCTION)
    (hid : id < 2 ^ 32) :
    decodeID (encodeVal kind id) = id ∧ (decodeKind (encodeVal kind id) : Int) = kind := by
  rcases hkind with h | h | h | h <;> subst h
  · have := decode_encode 0 id (by decide) hid
    exact ⟨this.1, by rw [show JSTYPE_OBJECT = ((0 : Nat) : Int) from rfl, this.2]⟩
  · have := decode_encode 1 id (by decide) hid
    exact ⟨this.1, by rw [show JSTYPE_STRING = ((1 : Nat) : Int) from rfl, this.2]⟩
  · have := decode_encode 2 id (by decide) hid
    exact ⟨this.1, by rw [show JSTYPE_SYMBOL = ((2 : Nat) : Int) from rfl, this.2]⟩
  · have := decode_encode 3 id (by decide) hid
    exact ⟨this.1, by rw [show JSTYPE_FUNCTION = ((3 : Nat) : Int) from rfl, this.2]⟩

theorem encode_decode_roundtrip_witness :
    (JSTYPE_FUNCTION = JSTYPE_OBJECT ∨ JSTYPE_FUNCTION = JSTYPE_STRING ∨
      JSTYPE_FUNCTION = JSTYPE_SYMBOL ∨ JSTYPE_FUNCTION = JSTYPE_FUNCTION) ∧
    4294967295 < 2 ^ 32 ∧
    (decodeID (encodeVal JSTYPE_FUNCTION 4294967295) = 4294967295 ∧
      (decodeKind (encodeVal JSTYPE_FUNCTION 4294967295) : Int) = JSTYPE_FUNCTION) :=
  ⟨by decide, by decide,
    encode_decode_roundtrip JSTYPE_FUNCTION 4294967295 (by decide) (by decide)⟩

/-! ### Guest memory -/

theorem make_of_nonneg (n : Int) (h : 0 ≤ n) : make n = some (List.replicate n.toNat 0) := by
  simp [make, not_lt.mpr h]

theorem readAt_ok (mem p : List Byte) (off : Int) (h0 : 0 ≤ off)
    (h1 : off + p.length ≤ mem.length) :
    readAt mem p off = some ((mem.drop off.toNat).take p.length, (p.length : Int), false) := by
  have hoff : (off.toNat : Int) = off := Int.toNat_of_nonneg h0
  have hc : ¬ (off < 0 ∨ (mem.length : Int) < off) := by omega
  have hl : ¬ (mem.length < p.length + off.toNat) := by omega
  simp [readAt, hc, hl]

theorem writeAt_ok (mem p : List Byte) (off : Int) (h0 : 0 ≤ off)
    (h1 : off + p.length ≤ mem.length) :
    writeAt mem p off =
      some (mem.take off.toNat ++ p ++ mem.drop (off.toNat + p.length),
        (p.length : Int), false) := by
  have hoff : (off.toNat : Int) = off := Int.toNat_of_nonneg h0
  have hc : ¬ (off < 0 ∨ (mem.length : Int) < off) := by omega
  have hl : ¬ (mem.length < p.length + off.toNat) := by omega
  simp [writeAt, hc, hl]

theorem written_bytes (mem p : List Byte) (o : Nat) (ho : o ≤ mem.length) :
    ((mem.take o ++ p ++ mem.drop (o + p.length)).drop o).take p.length = p := by
  have hlen : (mem.take o).length = o := by simp [ho]
  rw [List.append_assoc, List.drop_left' hlen, List.take_left' rfl]

theorem or_shift_eq (x b i : Nat) (hx : x < 2 ^ i) : x ||| b <<< i = 2 ^ i * b + x := by
  rw [Nat.shiftLeft_eq, Nat.or_comm, Nat.mul_comm]
  exact (Nat.mul_add_lt_is_or hx b).symm

theorem Uint64_eq_sum (b0 b1 b2 b3 b4 b5 b6 b7 : Byte) :
    Uint64 [b0, b1, b2, b3, b4, b5, b6, b7] =
      b0.val + 2 ^ 8 * b1.val + 2 ^ 16 * b2.val + 2 ^ 24 * b3.val + 2 ^ 32 * b4.val +
        2 ^ 40 * b5.val + 2 ^ 48 * b6.val + 2 ^ 56 * b7.val := by
  have h0 := b0.isLt
  have h1 := b1.isLt
  have h2 := b2.isLt
  have h3 := b3.isLt
  have h4 := b4.isLt
  have h5 := b5.isLt
  have h6 := b6.isLt
  have h7 := b7.isLt
  simp only [Uint64, List.getD_cons_zero, List.getD_cons_succ]
  rw [or_shift_eq _ _ 8 (by omega), or_shift_eq _ _ 16 (by omega),
    or_shift_eq _ _ 24 (by omega), or_shift_eq _ _ 32 (by omega),
    or_shift_eq _ _ 40 (by omega), or_shift_eq _ _ 48 (by omega),
    or_shift_eq _ _ 56 (by omega)]
  omega

theorem Uint64_PutUint64 (v : Nat) : Uint64 (PutUint64 v) = v % 2 ^ 64 := by
  rw [PutUint64, Uint64_eq_sum]
  simp only [byte, Fin.ofNat, Nat.shiftRight_eq_div_pow]
  omega

/-! ### `syscallJSValueGet` -/

theorem valTypeOf_cases (valID : Nat) (name : GoString) :
    valTypeOf valID name = 0 ∨ valTypeOf valID name = 3 := by
  unfold valTypeOf
  split
  · split
    · right; rfl
    · left; rfl
  · left; rfl

theorem valTypeOf_eq (valID : Nat) (name : GoString) :
    valTypeOf valID name =
      if valID = 5 ∧ name ∈ globalFunctionNames then JSTYPE_FUNCTION else JSTYPE_OBJECT := by
  unfold valTypeOf
  by_cases h1 : valID = 5 <;> by_cases h2 : name ∈ globalFunctionNames <;>
    simp [h1, h2, JSTYPE_OBJECT]

/-- The value written back, for either kind the function computes. -/
theorem encodeVal_valTypeOf (valID : Nat) (name : GoString) (id : Nat) (hid : id < 2 ^ 32) :
    encodeVal (valTypeOf valID name) id < 2 ^ 64 ∧
    encodeVal (valTypeOf valID name) id % 2 ^ 32 = id ∧
    encodeVal (valTypeOf valID name) id / 2 ^ 32 = nanHead ||| (valTypeOf valID name).toNat ∧
    (decodeKind (encodeVal (valTypeOf valID name) id) : Int) = valTypeOf valID name := by
  rcases valTypeOf_cases valID name with h | h <;> rw [h]
  · have e := encodeVal_eq 0 id (by decide) hid
    have d := (decode_encode 0 id (by decide) hid).2
    simp only [Nat.cast_zero] at e d
    rw [d, e]
    refine ⟨?_, ?_, ?_, rfl⟩
    · simp only [nanHead]; omega
    · omega
    · have : (nanHead ||| (0 : Int).toNat) = nanHead + 0 := rfl
      rw [this]; omega
  · have e := encodeVal_eq 3 id (by decide) hid
    have d := (decode_encode 3 id (by decide) hid).2
    simp only [Nat.cast_ofNat] at e d
    rw [d, e]
    refine ⟨?_, ?_, ?_, rfl⟩
    · simp only [nanHead]; omega
    · omega
    · have : (nanHead ||| (3 : Int).toNat) = nanHead + 3 := rfl
      rw [this]; omega

/-- What a call does when its three memory accesses are in range. -/
theorem syscallJSValueGet_ok (w : World)
    (returnPtr valueAddrPtr propertyNamePtr propertyNameLen paramE paramF : Int)
    (hlen : 0 ≤ propertyNameLen) (hname0 : 0 ≤ propertyNamePtr)
    (hname : propertyNamePtr + propertyNameLen ≤ w.mem.length)
    (hval0 : 0 ≤ valueAddrPtr) (hval : valueAddrPtr + 8 ≤ w.mem.length)
    (hret0 : 0 ≤ returnPtr) (hret : returnPtr + 8 ≤ w.mem.length) :
    syscallJSValueGet w returnPtr valueAddrPtr propertyNamePtr propertyNameLen paramE paramF =
      some { w with
        highestRef := (w.highestRef + 1) % 2 ^ 32,
        jsRefs := fun k =>
          if k = w.highestRef then
            some { Name := nameAt w.mem propertyNamePtr propertyNameLen,
                   Parent := decodeID (valRawAt w.mem valueAddrPtr),
                   Typ := valTypeOf (decodeID (valRawAt w.mem valueAddrPtr))
                     (nameAt w.mem propertyNamePtr propertyNameLen) }
          else w.jsRefs k,
        mem := w.mem.take returnPtr.toNat ++
          PutUint64 (encodeVal (valTypeOf (decodeID (valRawAt w.mem valueAddrPtr))
            (nameAt w.mem propertyNamePtr propertyNameLen)) w.highestRef) ++
          w.mem.drop (returnPtr.toNat + 8) } := by
  have hl : (propertyNameLen.toNat : Int) = propertyNameLen := Int.toNat_of_nonneg hlen
  have r1 := readAt_ok w.mem (List.replicate propertyNameLen.toNat 0) propertyNamePtr hname0
    (by simpa [hl] using hname)
  have m8 : make 8 = some (List.replicate 8 0) := rfl
  have r2 := readAt_ok w.mem (List.replicate 8 0) valueAddrPtr hval0 (by simpa using hval)
  have r3 := fun v => writeAt_ok w.mem (PutUint64 v) returnPtr hret0
    (by simpa [PutUint64] using hret)
  simp only [List.length_replicate] at r1 r2
  have l8 : ∀ v, (PutUint64 v).length = 8 := fun _ => rfl
  simp only [syscallJSValueGet, make_of_nonneg _ hlen, m8,
    Option.bind_eq_bind, Option.some_bind, r1, r2, newJSRef, r3, Option.pure_def,
    Bool.false_eq_true, if_false, l8, nameAt, valRawAt, decodeID]

/-- What every call that returns has done. -/
theorem syscallJSValueGet_effect (w w' : World)
    (returnPtr valueAddrPtr propertyNamePtr propertyNameLen paramE paramF : Int)
    (h : syscallJSValueGet w returnPtr valueAddrPtr propertyNamePtr propertyNameLen
      paramE paramF = some w') :
    ∃ p b : List Byte,
      (∃ p0 n e, make propertyNameLen = some p0 ∧
        readAt w.mem p0 propertyNamePtr = some (p, n, e)) ∧
      (∃ n e, readAt w.mem (List.replicate 8 0) valueAddrPtr = some (b, n, e)) ∧
      (∃ n e, writeAt w.mem
        (PutUint64 (encodeVal (valTypeOf (uint32 (Uint64 b)) p) w.highestRef))
        returnPtr = some (w'.mem, n, e)) ∧
      w'.highestRef = (w.highestRef + 1) % 2 ^ 32 ∧
      w'.jsRefs = (fun k =>
        if k = w.highestRef then
          some { Name := p, Parent := uint32 (Uint64 b),
                 Typ := valTypeOf (uint32 (Uint64 b)) p }
        else w.jsRefs k) ∧
      w'.stdout = w.stdout ∧ w'.stderr = w.stderr := by
  have m8 : make 8 = some (List.replicate 8 0) := rfl
  unfold syscallJSValueGet at h
  cases hm : make propertyNameLen with
  | none => rw [hm] at h; exact absurd h (by simp)
  | some p0 =>
    cases hr1 : readAt w.mem p0 propertyNamePtr with
    | none =>
      rw [hm] at h
      simp only [Option.bind_eq_bind, Option.some_bind, hr1] at h
      exact absurd h (by simp)
    | some r1 =>
      obtain ⟨p, n1, e1⟩ := r1
      cases hr2 : readAt w.mem (List.replicate 8 0) valueAddrPtr with
      | none =>
        cases e1 <;>
          simp only [hm, hr1, m8, Option.bind_eq_bind, Option.some_bind, Option.none_bind,
            hr2, logPrint, Bool.false_eq_true, if_false, if_true] at h <;>
          exact absurd h (by simp)
      | some r2 =>
        obtain ⟨b, n2, e2⟩ := r2
        cases hr3 : writeAt w.mem (PutUint64 (encodeVal (valTypeOf (uint32 (Uint64 b)) p)
            w.highestRef)) returnPtr with
        | none =>
          cases e1 <;> cases e2 <;>
            simp only [hm, hr1, m8, Option.bind_eq_bind, Option.some_bind, Option.none_bind,
              hr2, logPrint, Bool.false_eq_true, if_false, if_true, newJSRef, hr3] at h <;>
            exact absurd h (by simp)
        | some r3 =>
          obtain ⟨mem', n3, e3⟩ := r3
          refine ⟨p, b, ⟨p0, n1, e1, rfl, hr1⟩, ⟨n2, e2, rfl⟩, ?_⟩
          cases e1 <;> cases e2 <;> cases e3 <;>
            simp only [hm, hr1, m8, Option.bind_eq_bind, Option.some_bind, Option.none_bind,
              hr2, logPrint, Bool.false_eq_true, if_false, if_true, newJSRef, hr3,
              Option.pure_def, Option.some.injEq] at h <;>
            subst h <;>
            exact ⟨⟨_, _, hr3⟩, rfl, rfl, rfl, rfl⟩

/-- The 8 bytes at `returnPtr` after a write that fits. -/
theorem bytesAt_of_writeAt (mem mem' p : List Byte) (returnPtr n : Int) (e : Bool)
    (hp : p.length = 8) (hret0 : 0 ≤ returnPtr) (hret : returnPtr + 8 ≤ mem.length)
    (h : writeAt mem p returnPtr = some (mem', n, e)) :
    bytesAt mem' returnPtr = p := by
  rw [writeAt_ok mem p returnPtr hret0 (by rw [hp]; exact_mod_cast hret)] at h
  simp only [Option.some.injEq, Prod.mk.injEq] at h
  rw [← h.1, bytesAt]
  have := written_bytes mem p returnPtr.toNat (by omega)
  rw [hp] at this ⊢
  exact this

/-- C3: when the accesses of a call succeed, the 8 bytes at `returnPtr` are
the little-endian form of a 64-bit value whose low 32 bits are the id
`newJSRef` returned and whose high 32 bits are `nanHead` OR the kind tag of
the record stored under that id. -/
theorem syscallJSValueGet_writes_boxed_reference (w : World)
    (returnPtr valueAddrPtr propertyNamePtr propertyNameLen paramE paramF : Int)
    (hw : w.highestRef < 2 ^ 32)
    (hlen : 0 ≤ propertyNameLen) (hname0 : 0 ≤ propertyNamePtr)
    (hname : propertyNamePtr + propertyNameLen ≤ w.mem.length)
    (hval0 : 0 ≤ valueAddrPtr) (hval : valueAddrPtr + 8 ≤ w.mem.length)
    (hret0 : 0 ≤ returnPtr) (hret : returnPtr + 8 ≤ w.mem.length) :
    ∃ w' r v,
      syscallJSValueGet w returnPtr valueAddrPtr propertyNamePtr propertyNameLen paramE paramF
        = some w' ∧
      w'.jsRefs (newJSRef w r.Name r.Typ r.Parent).2.1 = some r ∧
      v < 2 ^ 64 ∧
      bytesAt w'.mem returnPtr = PutUint64 v ∧
      Uint64 (bytesAt w'.mem returnPtr) = v ∧
      v % 2 ^ 32 = (newJSRef w r.Name r.Typ r.Parent).2.1 ∧
      v / 2 ^ 32 = nanHead ||| r.Typ.toNat := by
  have hok := syscallJSValueGet_ok w returnPtr valueAddrPtr propertyNamePtr propertyNameLen
    paramE paramF hlen hname0 hname hval0 hval hret0 hret
  have hv := encodeVal_valTypeOf (decodeID (valRawAt w.mem valueAddrPtr))
    (nameAt w.mem propertyNamePtr propertyNameLen) w.highestRef hw
  have hb : bytesAt (w.mem.take returnPtr.toNat ++
      PutUint64 (encodeVal (valTypeOf (decodeID (valRawAt w.mem valueAddrPtr))
        (nameAt w.mem propertyNamePtr propertyNameLen)) w.highestRef) ++
      w.mem.drop (returnPtr.toNat + 8)) returnPtr =
      PutUint64 (encodeVal (valTypeOf (decodeID (valRawAt w.mem valueAddrPtr))
        (nameAt w.mem propertyNamePtr propertyNameLen)) w.highestRef) :=
    written_bytes w.mem (PutUint64 _) returnPtr.toNat (by omega)
  refine ⟨_, { Name := nameAt w.mem propertyNamePtr propertyNameLen,
               Parent := decodeID (valRawAt w.mem valueAddrPtr),
               Typ := valTypeOf (decodeID (valRawAt w.mem valueAddrPtr))
                 (nameAt w.mem propertyNamePtr propertyNameLen) },
    encodeVal (valTypeOf (decodeID (valRawAt w.mem valueAddrPtr))
      (nameAt w.mem propertyNamePtr propertyNameLen)) w.highestRef,
    hok, ?_, hv.1, hb, ?_, hv.2.1, hv.2.2.1⟩
  · simp [newJSRef]
  · show Uint64 (bytesAt (_ ++ _ ++ _) returnPtr) = _
    rw [hb, Uint64_PutUint64, Nat.mod_eq_of_lt hv.1]

theorem syscallJSValueGet_writes_boxed_reference_witness :
    ∃ w' r v,
      syscallJSValueGet (World.init globalMem) 13 0 8 5 0 0 = some w' ∧
      w'.jsRefs (newJSRef (World.init globalMem) r.Name r.Typ r.Parent).2.1 = some r ∧
      v < 2 ^ 64 ∧
      bytesAt w'.mem 13 = PutUint64 v ∧
      Uint64 (bytesAt w'.mem 13) = v ∧
      v % 2 ^ 32 = (newJSRef (World.init globalMem) r.Name r.Typ r.Parent).2.1 ∧
      v / 2 ^ 32 = nanHead ||| r.Typ.toNat :=
  syscallJSValueGet_writes_boxed_reference (World.init globalMem) 13 0 8 5 0 0
    (by decide) (by decide) (by decide) (by decide) (by decide) (by decide) (by decide)
    (by decide)

/-- C4 (counterexample): the 8 bytes at `valueAddrPtr` are the double 3.14,
whose high bits do not carry `nanHead`; the call reports nothing, takes the
low 32 bits `0x51EB851F` as the value id and allocates reference 8 with that
id as parent. -/
theorem syscallJSValueGet_accepts_plain_double :
    valRawAt doubleMem 0 = 0x40091EB851EB851F ∧
    (valRawAt doubleMem 0 >>> 32) &&& nanHead ≠ nanHead ∧
    (syscallJSValueGet (World.init doubleMem) 9 0 8 1 0 0).map
        (fun w => (w.jsRefs 8, w.highestRef, w.log)) =
      some (some { Name := lit "x", Parent := 0x51EB851F, Typ := JSTYPE_OBJECT }, 9, []) := by
  decide

/-- C4 (as amended): `syscallJSValueGet` makes no check of the NaN prefix. For
every 64-bit pattern at `valueAddrPtr`, with the prefix or without, a call
whose accesses succeed logs nothing, takes the low 32 bits of the pattern as
the value id and allocates a child reference with that id as parent. -/
theorem syscallJSValueGet_no_nan_check (w : World)
    (returnPtr valueAddrPtr propertyNamePtr propertyNameLen paramE paramF : Int)
    (hlen : 0 ≤ propertyNameLen) (hname0 : 0 ≤ propertyNamePtr)
    (hname : propertyNamePtr + propertyNameLen ≤ w.mem.length)
    (hval0 : 0 ≤ valueAddrPtr) (hval : valueAddrPtr + 8 ≤ w.mem.length)
    (hret0 : 0 ≤ returnPtr) (hret : returnPtr + 8 ≤ w.mem.length) :
    ∃ w' r,
      syscallJSValueGet w returnPtr valueAddrPtr propertyNamePtr propertyNameLen paramE paramF
        = some w' ∧
      w'.log = w.log ∧
      w'.jsRefs w.highestRef = some r ∧
      r.Parent = valRawAt w.mem valueAddrPtr % 2 ^ 32 ∧
      w'.highestRef = (w.highestRef + 1) % 2 ^ 32 := by
  refine ⟨_, { Name := nameAt w.mem propertyNamePtr propertyNameLen,
               Parent := decodeID (valRawAt w.mem valueAddrPtr),
               Typ := valTypeOf (decodeID (valRawAt w.mem valueAddrPtr))
                 (nameAt w.mem propertyNamePtr propertyNameLen) },
    syscallJSValueGet_ok w returnPtr valueAddrPtr propertyNamePtr propertyNameLen
      paramE paramF hlen hname0 hname hval0 hval hret0 hret, rfl, ?_, rfl, rfl⟩
  exact if_pos rfl

theorem syscallJSValueGet_no_nan_check_witness :
    ∃ w' r,
      syscallJSValueGet (World.init doubleMem) 9 0 8 1 0 0 = some w' ∧
      w'.log = (World.init doubleMem).log ∧
      w'.jsRefs (World.init doubleMem).highestRef = some r ∧
      r.Parent = valRawAt (World.init doubleMem).mem 0 % 2 ^ 32 ∧
      w'.highestRef = ((World.init doubleMem).highestRef + 1) % 2 ^ 32 :=
  syscallJSValueGet_no_nan_check (World.init doubleMem) 9 0 8 1 0 0
    (by decide) (by decide) (by decide) (by decide) (by decide) (by decide) (by decide)

/-- C5: every call that returns has stored, under the id it allocated, a record
whose name is the property name it read and whose parent is the value id it
read; the record's kind is Function (3) when that id is 5 and the name is one
of the ten names of the `case` list, and Object (0) for every other name on
id 5 and for every name on any other id; when the write at `returnPtr` fits,
the value written carries that kind as its tag. -/
theorem syscallJSValueGet_kind (w w' : World)
    (returnPtr valueAddrPtr propertyNamePtr propertyNameLen paramE paramF : Int)
    (hw : w.highestRef < 2 ^ 32)
    (h : syscallJSValueGet w returnPtr valueAddrPtr propertyNamePtr propertyNameLen
      paramE paramF = some w') :
    ∃ r,
      w'.jsRefs w.highestRef = some r ∧
      (∃ p0 n e, make propertyNameLen = some p0 ∧
        readAt w.mem p0 propertyNamePtr = some (r.Name, n, e)) ∧
      (∃ b n e, readAt w.mem (List.replicate 8 0) valueAddrPtr = some (b, n, e) ∧
        r.Parent = decodeID (Uint64 b)) ∧
      r.Typ = (if r.Parent = 5 ∧ r.Name ∈ globalFunctionNames then JSTYPE_FUNCTION
        else JSTYPE_OBJECT) ∧
      (0 ≤ returnPtr ∧ returnPtr + 8 ≤ w.mem.length →
        (decodeKind (Uint64 (bytesAt w'.mem returnPtr)) : Int) = r.Typ) := by
  obtain ⟨p, b, hp, ⟨n2, e2, hb⟩, ⟨n3, e3, hwr⟩, _, hrefs, _, _⟩ :=
    syscallJSValueGet_effect w w' returnPtr valueAddrPtr propertyNamePtr propertyNameLen
      paramE paramF h
  refine ⟨{ Name := p, Parent := uint32 (Uint64 b), Typ := valTypeOf (uint32 (Uint64 b)) p },
    ?_, hp, ⟨b, n2, e2, hb, rfl⟩, valTypeOf_eq _ _, ?_⟩
  · rw [hrefs]; exact if_pos rfl
  · rintro ⟨hret0, hret⟩
    have hv := encodeVal_valTypeOf (uint32 (Uint64 b)) p w.highestRef hw
    rw [bytesAt_of_writeAt w.mem w'.mem
        (PutUint64 (encodeVal (valTypeOf (uint32 (Uint64 b)) p) w.highestRef))
        returnPtr n3 e3 rfl hret0 hret hwr,
      Uint64_PutUint64, Nat.mod_eq_of_lt hv.1]
    exact hv.2.2.2

theorem syscallJSValueGet_kind_witness :
    ∃ r,
      globalAfter.jsRefs 8 = some r ∧ r.Name = lit "Array" ∧ r.Parent = 5 ∧
      r.Typ = JSTYPE_FUNCTION ∧
      (decodeKind (Uint64 (bytesAt globalAfter.mem 13)) : Int) = JSTYPE_FUNCTION := by
  obtain ⟨r, h1, _, _, h4, h5⟩ :=
    syscallJSValueGet_kind (World.init globalMem) globalAfter 13 0 8 5 0 0 (by decide) rfl
  have hr : r = { Name := lit "Array", Parent := 5, Typ := JSTYPE_FUNCTION } :=
    Option.some.inj (h1.symm.trans (by decide))
  have h5' := h5 (by decide)
  subst hr
  exact ⟨_, h1, rfl, rfl, rfl, h5'⟩

/-! ### Reference table: permanence of issued ids -/

/-- One call stores a record under the old `highestRef`, increments
`highestRef` and leaves every other entry as it was. -/
theorem Call.exec_effect (c : Call) (w w' : World) (h : c.exec w = some w') :
    w'.highestRef = (w.highestRef + 1) % 2 ^ 32 ∧
    (∃ r, w'.jsRefs w.highestRef = some r) ∧
    ∀ k, k ≠ w.highestRef → w'.jsRefs k = w.jsRefs k := by
  cases c with
  | newJSRef name jsType parent =>
    simp only [Call.exec, Option.some.injEq] at h
    subst h
    refine ⟨rfl, ⟨_, if_pos rfl⟩, ?_⟩
    intro k hk
    exact if_neg hk
  | syscallJSValueGet returnPtr valueAddrPtr propertyNamePtr propertyNameLen paramE paramF =>
    obtain ⟨p, b, _, _, _, hh, hrefs, _, _⟩ :=
      syscallJSValueGet_effect w w' returnPtr valueAddrPtr propertyNamePtr propertyNameLen
        paramE paramF h
    refine ⟨hh, ⟨_, by rw [hrefs]; exact if_pos rfl⟩, ?_⟩
    intro k hk
    rw [hrefs]
    exact if_neg hk

theorem runCalls_highestRef_lt (cs : List Call) :
    ∀ w w' : World, w.highestRef < 2 ^ 32 → runCalls w cs = some w' →
      w'.highestRef < 2 ^ 32 := by
  induction cs with
  | nil =>
    intro w w' hw h
    simp only [runCalls, Option.some.injEq] at h
    subst h
    exact hw
  | cons c cs ih =>
    intro w w' _ h
    simp only [runCalls, Option.bind_eq_some] at h
    obtain ⟨w1, h1, h2⟩ := h
    refine ih w1 w' ?_ h2
    rw [(Call.exec_effect c w w1 h1).1]
    exact Nat.mod_lt _ (by norm_num)

/-- A sequence of calls leaves alone every key it does not allocate. -/
theorem runCalls_preserves (cs : List Call) :
    ∀ (w w' : World) (k : Nat), w.highestRef < 2 ^ 32 → runCalls w cs = some w' →
      (∀ m, m < cs.length → (w.highestRef + m) % 2 ^ 32 ≠ k) →
      w'.jsRefs k = w.jsRefs k := by
  induction cs with
  | nil =>
    intro w w' k _ h _
    simp only [runCalls, Option.some.injEq] at h
    subst h
    rfl
  | cons c cs ih =>
    intro w w' k hw h hk
    simp only [runCalls, Option.bind_eq_some] at h
    obtain ⟨w1, h1, h2⟩ := h
    obtain ⟨hh, _, hother⟩ := Call.exec_effect c w w1 h1
    have hlt : w1.highestRef < 2 ^ 32 := by rw [hh]; exact Nat.mod_lt _ (by norm_num)
    have hk0 : k ≠ w.highestRef := by
      have := hk 0 (by simp)
      rw [Nat.add_zero, Nat.mod_eq_of_lt hw] at this
      exact fun e => this e.symm
    rw [ih w1 w' k hlt h2 ?_, hother k hk0]
    intro m hm
    have := hk (m + 1) (by simpa using hm)
    rw [hh]
    omega

/-- C6 (as amended): in a state reached from the initial table by any calls,
a call returns the id `highestRef` and stores a record under it, and after
every later sequence of fewer than `2^32` calls that record is still the
entry of that id. -/
theorem issued_id_permanent (mem : List Byte) (pre post : List Call) (c : Call)
    (w w1 w2 : World)
    (hpre : runCalls (World.init mem) pre = some w)
    (hc : c.exec w = some w1)
    (hpost : runCalls w1 post = some w2)
    (hlen : post.length < 2 ^ 32) :
    ∃ r, w1.jsRefs w.highestRef = some r ∧ w2.jsRefs w.highestRef = some r := by
  have hw : w.highestRef < 2 ^ 32 :=
    runCalls_highestRef_lt pre (World.init mem) w (by simp [World.init]) hpre
  obtain ⟨hh, ⟨r, hr⟩, _⟩ := Call.exec_effect c w w1 hc
  have hlt : w1.highestRef < 2 ^ 32 := by rw [hh]; exact Nat.mod_lt _ (by norm_num)
  refine ⟨r, hr, ?_⟩
  rw [runCalls_preserves post w1 w2 w.highestRef hlt hpost ?_, hr]
  intro m hm
  rw [hh]
  omega

theorem issued_id_permanent_witness :
    ∃ r, globalAfter.jsRefs (World.init globalMem).highestRef = some r ∧
      (newJSRef globalAfter (lit "b") JSTYPE_STRING 8).1.jsRefs
        (World.init globalMem).highestRef = some r :=
  issued_id_permanent globalMem [] [Call.newJSRef (lit "b") JSTYPE_STRING 8]
    (Call.syscallJSValueGet 13 0 8 5 0 0) (World.init globalMem) globalAfter
    (newJSRef globalAfter (lit "b") JSTYPE_STRING 8).1 rfl rfl rfl (by decide)

/-- Repeating one `newJSRef` call `n` times. -/
theorem runCalls_replicate_newJSRef (name : GoString) (jsType : Int) (parent : Nat)
    (n : Nat) :
    ∀ w : World, w.highestRef < 2 ^ 32 →
      ∃ w', runCalls w (List.replicate n (Call.newJSRef name jsType parent)) = some w' ∧
        w'.highestRef = (w.highestRef + n) % 2 ^ 32 ∧
        (0 < n → w'.jsRefs ((w.highestRef + (n - 1)) % 2 ^ 32)
          = some { Name := name, Parent := parent, Typ := jsType }) := by
  induction n with
  | zero =>
    intro w hw
    exact ⟨w, rfl, (Nat.mod_eq_of_lt hw).symm, fun h => absurd h (by decide)⟩
  | succ n ih =>
    intro w hw
    have hlt : (newJSRef w name jsType parent).1.highestRef < 2 ^ 32 :=
      Nat.mod_lt _ (by norm_num)
    obtain ⟨w1, h1, h2, h3⟩ := ih ((newJSRef w name jsType parent).1) hlt
    refine ⟨w1, ?_, ?_, ?_⟩
    · rw [List.replicate_succ, runCalls, Call.exec, Option.some_bind]
      exact h1
    · rw [h2]
      simp only [newJSRef]
      omega
    · intro _
      rcases Nat.eq_zero_or_pos n with hn | hn
      · subst hn
        simp only [List.replicate_zero, runCalls, Option.some.injEq] at h1
        subst h1
        simp only [newJSRef, Nat.zero_add, Nat.sub_self, Nat.add_zero,
          Nat.mod_eq_of_lt hw, if_true]
      · have := h3 hn
        simp only [newJSRef] at this
        rw [← this]
        congr 1
        simp only [Nat.add_sub_cancel]
        omega

/-- C6 (counterexample): `newJSRef("a", 0, 0)` on the initial table returns
id 8 and stores its record there; `2^32` later `newJSRef("b", 0, 0)` calls
bring `highestRef` round to 8 again and the entry of id 8 is the record of
`b`. -/
theorem issued_id_overwritten_after_wrap :
    ∃ w1 w2,
      (Call.newJSRef (lit "a") 0 0).exec (World.init []) = some w1 ∧
      w1.jsRefs 8 = some { Name := lit "a", Parent := 0, Typ := 0 } ∧
      runCalls w1 (List.replicate 4294967296 (Call.newJSRef (lit "b") 0 0)) = some w2 ∧
      w2.jsRefs 8 = some { Name := lit "b", Parent := 0, Typ := 0 } ∧
      w2.jsRefs 8 ≠ w1.jsRefs 8 := by
  obtain ⟨w2, h1, _, h3⟩ := runCalls_replicate_newJSRef (lit "b") 0 0 4294967296
    (newJSRef (World.init []) (lit "a") 0 0).1 (by decide)
  have h8 : w2.jsRefs 8 = some { Name := lit "b", Parent := 0, Typ := 0 } :=
    h3 (by norm_num)
  refine ⟨_, w2, rfl, rfl, h1, h8, ?_⟩
  rw [h8]
  decide

/-! ### `resourceWrite` -/

/-- What `resourceWrite` does when the data range is readable. -/
theorem resourceWrite_ok (w : World) (fid dataPtr dataLen : Int)
    (hlen : 0 ≤ dataLen) (hptr : 0 ≤ dataPtr) (hrange : dataPtr + dataLen ≤ w.mem.length) :
    resourceWrite w fid dataPtr dataLen =
      if fid = FILE_STDERR then
        some ({ w with stderr := w.stderr ++ nameAt w.mem dataPtr dataLen }, 0)
      else if fid = FILE_STDOUT then
        some ({ w with stdout := w.stdout ++ nameAt w.mem dataPtr dataLen }, 0)
      else some (logPrint w LogEntry.writeError, 0) := by
  have hl : (dataLen.toNat : Int) = dataLen := Int.toNat_of_nonneg hlen
  have r1 := readAt_ok w.mem (List.replicate dataLen.toNat 0) dataPtr hptr
    (by simpa [hl] using hrange)
  simp only [List.length_replicate] at r1
  simp only [resourceWrite, make_of_nonneg _ hlen, Option.bind_eq_bind, Option.some_bind, r1,
    Bool.false_eq_true, if_false, hl, ne_eq, not_true_eq_false, Option.pure_def, nameAt]
  by_cases h1 : fid = FILE_STDERR
  · rw [if_pos h1, if_pos h1]
  · by_cases h2 : fid = FILE_STDOUT
    · rw [if_neg h1, if_pos h2, if_neg h1, if_pos h2]
    · rw [if_neg h1, if_neg h2, if_neg h1, if_neg h2]

/-- C7 (counterexample): writing the 5 bytes `hello` to the stdout descriptor
sends exactly `hello` to standard output and returns 0, not 5. -/
theorem resourceWrite_hello_returns_zero :
    (resourceWrite (World.init (lit "hello")) FILE_STDOUT 0 5).map
        (fun r => (r.1.stdout, r.2)) = some (lit "hello", 0) ∧
    (resourceWrite (World.init (lit "hello")) FILE_STDOUT 0 5).map
        (fun r => r.2) ≠ some 5 := by
  decide

/-- C7 (as amended): when `dataLen` bytes at `dataPtr` are readable,
`resourceWrite` with the stdout descriptor appends exactly those bytes to the
host's standard output, changes nothing else, and returns 0, the code of a
successful write (not the byte count). -/
theorem resourceWrite_stdout (w : World) (dataPtr dataLen : Int)
    (hlen : 0 ≤ dataLen) (hptr : 0 ≤ dataPtr) (hrange : dataPtr + dataLen ≤ w.mem.length) :
    resourceWrite w FILE_STDOUT dataPtr dataLen =
      some ({ w with stdout := w.stdout ++ (w.mem.drop dataPtr.toNat).take dataLen.toNat },
        0) := by
  rw [resourceWrite_ok w FILE_STDOUT dataPtr dataLen hlen hptr hrange]
  rfl

theorem resourceWrite_stdout_witness :
    resourceWrite (World.init (lit "hello")) FILE_STDOUT 0 5 =
      some ({ World.init (lit "hello") with
        stdout := (World.init (lit "hello")).stdout ++
          ((World.init (lit "hello")).mem.drop (0 : Int).toNat).take (5 : Int).toNat }, 0) :=
  resourceWrite_stdout (World.init (lit "hello")) 0 5 (by decide) (by decide) (by decide)

/-- C8 (counterexample): a write of the byte `x` to descriptor 0, which is
neither stdout nor stderr, returns 0, the very result of the same write to
the stdout descriptor. -/
theorem resourceWrite_unknown_returns_success_code :
    (0 : Int) ≠ FILE_STDOUT ∧ (0 : Int) ≠ FILE_STDERR ∧
    (resourceWrite (World.init (lit "x")) 0 0 1).map (fun r => r.2) = some 0 ∧
    (resourceWrite (World.init (lit "x")) FILE_STDOUT 0 1).map (fun r => r.2) = some 0 := by
  decide

/-- C8 (as amended): for a descriptor that is neither stdout nor stderr and a
readable data range, `resourceWrite` writes nothing to either stream, logs the
failed write, and returns 0, the same code as a successful write. -/
theorem resourceWrite_unknown_descriptor (w : World) (fid dataPtr dataLen : Int)
    (hout : fid ≠ FILE_STDOUT) (herr : fid ≠ FILE_STDERR)
    (hlen : 0 ≤ dataLen) (hptr : 0 ≤ dataPtr) (hrange : dataPtr + dataLen ≤ w.mem.length) :
    resourceWrite w fid dataPtr dataLen =
      some ({ w with log := w.log ++ [LogEntry.writeError] }, 0) ∧
    (resourceWrite w fid dataPtr dataLen).map (fun r => r.2) =
      (resourceWrite w FILE_STDOUT dataPtr dataLen).map (fun r => r.2) := by
  rw [resourceWrite_ok w fid dataPtr dataLen hlen hptr hrange,
    resourceWrite_ok w FILE_STDOUT dataPtr dataLen hlen hptr hrange]
  simp only [hout, herr, if_false]
  exact ⟨rfl, rfl⟩

theorem resourceWrite_unknown_descriptor_witness :
    resourceWrite (World.init (lit "x")) 0 0 1 =
      some ({ World.init (lit "x") with
        log := (World.init (lit "x")).log ++ [LogEntry.writeError] }, 0) ∧
    (resourceWrite (World.init (lit "x")) 0 0 1).map (fun r => r.2) =
      (resourceWrite (World.init (lit "x")) FILE_STDOUT 0 1).map (fun r => r.2) :=
  resourceWrite_unknown_descriptor (World.init (lit "x")) 0 0 1 (by decide) (by decide)
    (by decide) (by decide) (by decide)

/-! ### `funcResolver` -/

/-- C9: `funcResolver` is total; it returns a module and no error for exactly
the names `env` and `imports`, and an error and no module for every other
name, `bogus` among them. -/
theorem funcResolver_namespaces (name : GoString) :
    ((∃ m, funcResolver name = Except.ok m) ↔ (name = lit "env" ∨ name = lit "imports")) ∧
    ((∃ e, funcResolver name = Except.error e) ↔
      ¬ (name = lit "env" ∨ name = lit "imports")) ∧
    (∃ e, funcResolver (lit "bogus") = Except.error e) := by
  refine ⟨?_, ?_, ⟨_, rfl⟩⟩
  · by_cases h1 : name = lit "env"
    · simp [funcResolver, if_pos h1, h1]
    · by_cases h2 : name = lit "imports"
      · rw [funcResolver, if_neg h1, if_pos h2]
        simp [h2]
      · rw [funcResolver, if_neg h1, if_neg h2]
        simp [h1, h2]
  · by_cases h1 : name = lit "env"
    · simp [funcResolver, if_pos h1, h1]
    · by_cases h2 : name = lit "imports"
      · rw [funcResolver, if_neg h1, if_pos h2]
        simp [h2]
      · rw [funcResolver, if_neg h1, if_neg h2]
        simp [h1, h2]

/-- C10 (the code at the failing entries): in the module of `env`, the entries
7, 9 and 10 of `FunctionIndexSpace` declare a signature that is not the
handler's: `syscallJSValuePrepareString` 4 parameters against 6,
`syscallJSStringVal` 5 against 6, `runtimeTicks` an `f64` result against
`int32`; the other eight entries agree. -/
theorem envModule_signature_mismatch :
    ∃ m, funcResolver (lit "env") = Except.ok m ∧
      m.FunctionIndexSpace.map (fun f => f.Host) =
        [HostFn.ioGetStderr, HostFn.ioGetStdout, HostFn.resourceOpen, HostFn.resourceRead,
         HostFn.resourceWrite, HostFn.syscallJSValueCall, HostFn.syscallJSValueGet,
         HostFn.syscallJSValuePrepareString, HostFn.syscallJSValueLoadString,
         HostFn.syscallJSStringVal, HostFn.runtimeTicks] ∧
      m.FunctionIndexSpace.map m.sigMatchesHost =
        [true, true, true, true, true, true, true, false, true, false, false] ∧
      m.FunctionIndexSpace.map (fun f => (m.sigOf f).map (fun s => s.ParamTypes.length)) =
        [some 0, some 0, some 2, some 3, some 3, some 9, some 6, some 4, some 6, some 5,
         some 0] ∧
      m.FunctionIndexSpace.map (fun f => f.Host.params.length) =
        [0, 0, 2, 3, 3, 9, 6, 6, 6, 6, 0] ∧
      (m.FunctionIndexSpace[10]?.bind m.sigOf).map (fun s => s.ReturnTypes) =
        some [ValueType.F64] ∧
      HostFn.runtimeTicks.results.map GoKind.valueType = [ValueType.I32] :=
  ⟨envModule, rfl, by decide, by decide, by decide, by decide, by decide, by decide⟩

/-! ### Export table of the `env` module -/

/-- C11 (the code at the failing entry): in the module of `env` the entry keyed
`io_get_stderr` has `FieldStr` `io_get_stdout`, not its key; the other ten
entries carry their key. Every entry has kind function, the indices are
0..10 in turn, and the handler at each index is the function the key names. -/
theorem envModule_export_fieldStr_mismatch :
    ∃ m, funcResolver (lit "env") = Except.ok m ∧
      m.Export.lookup (lit "io_get_stderr") =
        some { FieldStr := lit "io_get_stdout", Kind := External.ExternalFunction,
               Index := 0 } ∧
      lit "io_get_stdout" ≠ lit "io_get_stderr" ∧
      m.Export.map (fun p => decide (p.2.FieldStr = p.1)) =
        [false, true, true, true, true, true, true, true, true, true, true] ∧
      m.Export.map (fun p => p.2.Kind) = List.replicate 11 External.ExternalFunction ∧
      m.Export.map (fun p => p.2.Index) = [0, 1, 2, 3, 4, 5, 6, 7, 8, 9, 10] ∧
      m.Export.map (fun p => (p.1, (m.FunctionIndexSpace[p.2.Index]?).map (fun f => f.Host))) =
        [(lit "io_get_stderr", some HostFn.ioGetStderr),
         (lit "io_get_stdout", some HostFn.ioGetStdout),
         (lit "resource_open", some HostFn.resourceOpen),
         (lit "resource_read", some HostFn.resourceRead),
         (lit "resource_write", some HostFn.resourceWrite),
         (lit "syscall/js.valueCall", some HostFn.syscallJSValueCall),
         (lit "syscall/js.valueGet", some HostFn.syscallJSValueGet),
         (lit "syscall/js.valuePrepareString", some HostFn.syscallJSValuePrepareString),
         (lit "syscall/js.valueLoadString", some HostFn.syscallJSValueLoadString),
         (lit "syscall/js.stringVal", some HostFn.syscallJSStringVal),
         (lit "runtime.ticks", some HostFn.runtimeTicks)] :=
  ⟨envModule, rfl, by decide, by decide, by decide, by decide, by decide, by decide⟩

/-! ### `resourceOpen` -/

theorem readAt_short (mem p : List Byte) (off : Int) (h0 : 0 ≤ off)
    (h1 : off ≤ mem.length) (h2 : (mem.length : Int) < p.length + off) :
    ∃ data, readAt mem p off = some (data, ((mem.length - off.toNat : Nat) : Int), true) := by
  have hoff : (off.toNat : Int) = off := Int.toNat_of_nonneg h0
  have hc : ¬ (off < 0 ∨ (mem.length : Int) < off) := by omega
  have hl : mem.length < p.length + off.toNat := by omega
  have hlt : mem.length - off.toNat < p.length := by omega
  refine ⟨(mem.drop off.toNat).take (mem.length - off.toNat) ++
    p.drop (mem.length - off.toNat), ?_⟩
  simp [readAt, hc, hl, hlt]

/-- What `resourceOpen` does when the URL bytes are readable. -/
theorem resourceOpen_ok (urlParse : GoString → Bool) (w : World) (urlPtr urlLen : Nat)
    (hrange : urlPtr + urlLen ≤ w.mem.length) :
    resourceOpen urlParse w urlPtr urlLen =
      if urlParse ((w.mem.drop urlPtr).take urlLen) then some (w, FILE_UNKNOWN)
      else some (logPrint w (LogEntry.cantParseURL ((w.mem.drop urlPtr).take urlLen)), 0) := by
  have r1 := readAt_ok w.mem (List.replicate urlLen 0) (urlPtr : Int) (by omega)
    (by simp only [List.length_replicate]; exact_mod_cast hrange)
  simp only [List.length_replicate, Int.toNat_ofNat] at r1
  simp only [resourceOpen, make_of_nonneg _ (Int.ofNat_nonneg urlLen), Int.toNat_ofNat,
    Option.bind_eq_bind, Option.some_bind, r1, Bool.false_eq_true, if_false, Option.pure_def]

/-- What `resourceOpen` does when the memory ends before `urlLen` bytes. -/
theorem resourceOpen_short (urlParse : GoString → Bool) (w : World) (urlPtr urlLen : Nat)
    (h1 : urlPtr ≤ w.mem.length) (h2 : w.mem.length < urlPtr + urlLen) :
    resourceOpen urlParse w urlPtr urlLen =
      some (logPrint w LogEntry.readError, int32 ((w.mem.length - urlPtr : Nat) : Int)) := by
  obtain ⟨data, r1⟩ := readAt_short w.mem (List.replicate urlLen 0) (urlPtr : Int) (by omega)
    (by exact_mod_cast h1)
    (by simp only [List.length_replicate]; omega)
  simp only [Int.toNat_ofNat] at r1
  simp only [resourceOpen, make_of_nonneg _ (Int.ofNat_nonneg urlLen), Int.toNat_ofNat,
    Option.bind_eq_bind, Option.some_bind, r1, if_true, Option.pure_def]

/-- C12 (the code at the failing input): with a memory of 153 pages,
`resourceOpen(proc, 27011, 10000000)` asks for more bytes than the memory
holds from 27011 on; the read is short, and the function returns the count of
bytes read, 9999997, which is the value `ioGetStdout` returns. -/
theorem resourceOpen_short_read_returns_stdout :
    (resourceOpen urlParseOK (World.init pagesMem) 27011 10000000).map (fun r => r.2) =
      some (ioGetStdout (World.init pagesMem)) ∧
    ioGetStdout (World.init pagesMem) = FILE_STDOUT := by
  have hlen : (World.init pagesMem).mem.length = 10027008 := by
    simp only [World.init, pagesMem, List.length_replicate]
  rw [resourceOpen_short urlParseOK (World.init pagesMem) 27011 10000000
    (by rw [hlen]; norm_num) (by rw [hlen]; norm_num), hlen]
  exact ⟨rfl, rfl⟩

/-- C13 (counterexample): the URL `http://example.com/` is read and parsed, and
`resourceOpen` returns `FILE_UNKNOWN` (9999999), its result for every URL that
parses, and logs nothing. -/
theorem resourceOpen_http_returns_placeholder :
    urlParseOK httpMem = true ∧
    (resourceOpen urlParseOK (World.init httpMem) 0 19).map (fun r => (r.1.log, r.2)) =
      some ([], FILE_UNKNOWN) ∧
    FILE_UNKNOWN = 9999999 := by
  decide

/-- C13 (as amended): for every URL whose bytes are readable and which parses,
whatever its scheme (http and https among them), `resourceOpen` returns the
placeholder handle `FILE_UNKNOWN`, logs nothing and changes nothing: the code
has no result for an unsupported resource. -/
theorem resourceOpen_parsed_url (urlParse : GoString → Bool) (w : World)
    (urlPtr urlLen : Nat) (hrange : urlPtr + urlLen ≤ w.mem.length)
    (hparse : urlParse ((w.mem.drop urlPtr).take urlLen) = true) :
    resourceOpen urlParse w urlPtr urlLen = some (w, FILE_UNKNOWN) := by
  rw [resourceOpen_ok urlParse w urlPtr urlLen hrange, if_pos hparse]

theorem resourceOpen_parsed_url_witness :
    resourceOpen urlParseOK (World.init httpMem) 0 19 =
      some (World.init httpMem, FILE_UNKNOWN) :=
  resourceOpen_parsed_url urlParseOK (World.init httpMem) 0 19 (by decide) (by decide)

/-- C14 (counterexample): the text `not a url`, the case the claim names, is
not a parse failure: `url.Parse` takes it as a relative path. `resourceOpen`
reads it, logs nothing and returns `FILE_UNKNOWN` (9999999), not 0. -/
theorem resourceOpen_not_a_url_parses :
    urlParseOK notAURLMem = true ∧
    (resourceOpen urlParseOK (World.init notAURLMem) 0 9).map (fun r => (r.1.log, r.2)) =
      some ([], FILE_UNKNOWN) ∧
    FILE_UNKNOWN ≠ 0 := by
  decide

/-- C14 (as amended): when the `urlLen` bytes at `urlPtr` are readable and
`url.Parse` returns an error for them, `resourceOpen` logs the failure and
returns 0; it returns normally. (The text `not a url` is not such a string;
`%zz` and `:foo` are.) -/
theorem resourceOpen_parse_failure (urlParse : GoString → Bool) (w : World)
    (urlPtr urlLen : Nat) (hrange : urlPtr + urlLen ≤ w.mem.length)
    (hparse : urlParse ((w.mem.drop urlPtr).take urlLen) = false) :
    resourceOpen urlParse w urlPtr urlLen =
      some ({ w with
        log := w.log ++ [LogEntry.cantParseURL ((w.mem.drop urlPtr).take urlLen)] }, 0) := by
  rw [resourceOpen_ok urlParse w urlPtr urlLen hrange, hparse]
  rfl

theorem resourceOpen_parse_failure_witness :
    resourceOpen urlParseOK (World.init badEscapeMem) 0 3 =
      some ({ World.init badEscapeMem with
        log := (World.init badEscapeMem).log ++
          [LogEntry.cantParseURL (((World.init badEscapeMem).mem.drop 0).take 3)] }, 0) :=
  resourceOpen_parse_failure urlParseOK (World.init badEscapeMem) 0 3 (by decide)
    (by decide)

/-! ### Buffer allocation and short reads -/

/-- C15 (the code at the failing input): with `dataLen = -1` the allocation
`make([]byte, dataLen)` of `resourceWrite` panics, and with
`propertyNameLen = -1` so does that of `syscallJSValueGet`: neither call
returns, whatever the state and the other arguments. -/
theorem negative_length_panics :
    (∀ (w : World) (fid dataPtr : Int), resourceWrite w fid dataPtr (-1) = none) ∧
    (∀ (w : World) (returnPtr valueAddrPtr propertyNamePtr paramE paramF : Int),
      syscallJSValueGet w returnPtr valueAddrPtr propertyNamePtr (-1) paramE paramF = none) :=
  ⟨fun _ _ _ => rfl, fun _ _ _ _ _ _ => rfl⟩

/-- C16: when the read of `resourceWrite` transfers a number of bytes other
than `dataLen`, the call returns 1 or 2, no byte reaches standard output or
standard error, and no write with a readable range, to a known descriptor or
to an unknown one, returns that code. -/
theorem resourceWrite_length_mismatch (w : World) (fid dataPtr dataLen : Int)
    (p0 data : List Byte) (n : Int) (err : Bool)
    (hmake : make dataLen = some p0)
    (hread : readAt w.mem p0 dataPtr = some (data, n, err))
    (hn : n ≠ dataLen) :
    ∃ w' code, resourceWrite w fid dataPtr dataLen = some (w', code) ∧
      (code = 1 ∨ code = 2) ∧
      w'.stdout = w.stdout ∧ w'.stderr = w.stderr ∧
      ∀ (w2 : World) (fid2 dataPtr2 dataLen2 : Int), 0 ≤ dataLen2 → 0 ≤ dataPtr2 →
        dataPtr2 + dataLen2 ≤ w2.mem.length →
        (resourceWrite w2 fid2 dataPtr2 dataLen2).map (fun r => r.2) ≠ some code := by
  have hok : ∀ (w2 : World) (fid2 dataPtr2 dataLen2 : Int), 0 ≤ dataLen2 → 0 ≤ dataPtr2 →
      dataPtr2 + dataLen2 ≤ w2.mem.length →
      (resourceWrite w2 fid2 dataPtr2 dataLen2).map (fun r => r.2) = some 0 := by
    intro w2 fid2 dataPtr2 dataLen2 h1 h2 h3
    rw [resourceWrite_ok w2 fid2 dataPtr2 dataLen2 h1 h2 h3]
    by_cases e1 : fid2 = FILE_STDERR
    · rw [if_pos e1]; rfl
    · by_cases e2 : fid2 = FILE_STDOUT
      · rw [if_neg e1, if_pos e2]; rfl
      · rw [if_neg e1, if_neg e2]; rfl
  cases err with
  | true =>
    refine ⟨logPrint w LogEntry.readError, 1, ?_, Or.inl rfl, rfl, rfl, ?_⟩
    · simp only [resourceWrite, hmake, hread, Option.bind_eq_bind, Option.some_bind, if_true,
        Option.pure_def]
    · intro w2 fid2 dataPtr2 dataLen2 h1 h2 h3
      rw [hok w2 fid2 dataPtr2 dataLen2 h1 h2 h3]
      decide
  | false =>
    refine ⟨logPrint w (LogEntry.shortRead dataLen n), 2, ?_, Or.inr rfl, rfl, rfl, ?_⟩
    · simp only [resourceWrite, hmake, hread, Option.bind_eq_bind, Option.some_bind,
        Bool.false_eq_true, if_false, ne_eq, hn, not_false_eq_true, if_true, Option.pure_def]
    · intro w2 fid2 dataPtr2 dataLen2 h1 h2 h3
      rw [hok w2 fid2 dataPtr2 dataLen2 h1 h2 h3]
      decide

theorem resourceWrite_length_mismatch_witness :
    ∃ w' code, resourceWrite (World.init (lit "hello")) FILE_STDOUT 0 6 = some (w', code) ∧
      (code = 1 ∨ code = 2) ∧
      w'.stdout = (World.init (lit "hello")).stdout ∧
      w'.stderr = (World.init (lit "hello")).stderr ∧
      ∀ (w2 : World) (fid2 dataPtr2 dataLen2 : Int), 0 ≤ dataLen2 → 0 ≤ dataPtr2 →
        dataPtr2 + dataLen2 ≤ w2.mem.length →
        (resourceWrite w2 fid2 dataPtr2 dataLen2).map (fun r => r.2) ≠ some code :=
  resourceWrite_length_mismatch (World.init (lit "hello")) FILE_STDOUT 0 6
    (List.replicate 6 0) (lit "hello" ++ [0]) 5 true (by decide) (by decide) (by decide)

/-! ### Run driver -/

theorem addFunctionInfo_true (insert : Nat → InsertOutcome) (fs : List GuestFunction) :
    ∀ (i : Nat) (log : List DriverLog),
      (∀ k, k < fs.length → insert (i + k) ≠ InsertOutcome.error) →
      (addFunctionInfo insert i fs log).1 = true := by
  induction fs with
  | nil => intro i log _; rfl
  | cons j rest ih =>
    intro i log h
    have h0 := h 0 (by simp)
    have hrest : ∀ k, k < rest.length → insert (i + 1 + k) ≠ InsertOutcome.error := by
      intro k hk
      have := h (k + 1) (by simpa using hk)
      rwa [show i + 1 + k = i + (k + 1) by omega]
    rw [Nat.add_zero] at h0
    unfold addFunctionInfo
    cases hi : insert i with
    | error => exact absurd hi h0
    | rowsAffected numRows =>
      simp only
      split
      · exact ih (i + 1) _ hrest
      · exact ih (i + 1) _ hrest

theorem addFunctionInfo_false (insert : Nat → InsertOutcome) (fs : List GuestFunction) :
    ∀ (i : Nat) (log : List DriverLog),
      (∃ k, k < fs.length ∧ insert (i + k) = InsertOutcome.error) →
      (addFunctionInfo insert i fs log).1 = false ∧
      ∃ k, DriverLog.insertError k ∈ (addFunctionInfo insert i fs log).2 := by
  induction fs with
  | nil =>
    intro i log h
    obtain ⟨k, hk, _⟩ := h
    exact absurd hk (by simp)
  | cons j rest ih =>
    intro i log h
    unfold addFunctionInfo
    cases hi : insert i with
    | error => exact ⟨rfl, i, by simp⟩
    | rowsAffected numRows =>
      have hrest : ∃ k, k < rest.length ∧ insert (i + 1 + k) = InsertOutcome.error := by
        obtain ⟨k, hk, he⟩ := h
        cases k with
        | zero => rw [Nat.add_zero, hi] at he; exact absurd he (by simp)
        | succ k =>
          exact ⟨k, by simpa using hk, by rwa [show i + 1 + k = i + (k + 1) by omega]⟩
      simp only
      split
      · exact ih (i + 1) _ hrest
      · exact ih (i + 1) _ hrest

/-- What `main` does once it has reached the loop that locates the entry point. -/
theorem main_of_reachesEntry (env : Env) (entries : List (GoString × ExportEntry))
    (h : env.reachesEntry entries) :
    (main env).vmConstructed = true ∧
    (main env).executed = locateMain entries ∧
    (locateMain entries = none → (main env).exit = Exit.panicNoMain) := by
  obtain ⟨h1, h2, h3, dbRun, m, h4, h5, h6, h7, h8⟩ := h
  have hadd := addFunctionInfo_true env.insert m.FunctionIndexSpace 0
    [DriverLog.executionRun dbRun] (by simpa using h6)
  unfold main
  simp only [h1, h2, h3, h4, h5, h7, h8, ne_eq, not_true_eq_false, if_false, Bool.not_true,
    Bool.false_eq_true]
  cases hr : addFunctionInfo env.insert 0 m.FunctionIndexSpace [DriverLog.executionRun dbRun]
    with
  | mk b lg =>
    rw [hr] at hadd
    simp only at hadd
    subst hadd
    simp only
    cases hl : locateMain entries with
    | none => exact ⟨rfl, rfl, fun _ => rfl⟩
    | some mainID =>
      simp only
      by_cases he : env.execCodeOK mainID = true
      · rw [if_pos he]; exact ⟨rfl, rfl, fun hc => absurd hc (by simp)⟩
      · rw [if_neg he]; exact ⟨rfl, rfl, fun hc => absurd hc (by simp)⟩

theorem locateMain_none (entries : List (GoString × ExportEntry)) :
    locateMain entries = none ↔ ∀ p ∈ entries, isEntry p.1 p.2 = false := by
  induction entries with
  | nil => simp [locateMain]
  | cons p rest ih =>
    obtain ⟨name, entry⟩ := p
    unfold locateMain
    by_cases hp : isEntry name entry = true
    · simp [hp]
    · simp only [hp, Bool.false_eq_true, if_false, ih, List.mem_cons, forall_eq_or_imp,
        Bool.not_eq_true] at *
      simp [hp]

theorem locateMain_first (pre post : List (GoString × ExportEntry))
    (name : GoString) (entry : ExportEntry)
    (hpre : ∀ p ∈ pre, isEntry p.1 p.2 = false) (he : isEntry name entry = true) :
    locateMain (pre ++ (name, entry) :: post) = some entry.Index := by
  induction pre with
  | nil => simp [locateMain, he]
  | cons p rest ih =>
    obtain ⟨n, e⟩ := p
    have hp : isEntry n e = false := hpre (n, e) (by simp)
    simp only [List.cons_append, locateMain, hp, Bool.false_eq_true, if_false]
    exact ih (fun q hq => hpre q (by simp [hq]))

theorem locateMain_some (entries : List (GoString × ExportEntry)) (mainID : Nat)
    (h : locateMain entries = some mainID) :
    ∃ p ∈ entries, isEntry p.1 p.2 = true ∧ p.2.Index = mainID := by
  induction entries with
  | nil => simp [locateMain] at h
  | cons p rest ih =>
    obtain ⟨name, entry⟩ := p
    unfold locateMain at h
    by_cases hp : isEntry name entry = true
    · rw [if_pos hp] at h
      exact ⟨(name, entry), by simp, hp, Option.some.inj h⟩
    · rw [if_neg hp] at h
      obtain ⟨q, hq, h1, h2⟩ := ih h
      exact ⟨q, by simp [hq], h1, h2⟩

/-- C17 (counterexample): every external call succeeds except the inserts,
which return an error; the module exports `main`. The run logs the error of
the first insert and returns: no VM is constructed and nothing is executed. -/
theorem main_returns_on_insert_error :
    main (sampleEnv InsertOutcome.error [entryOther, entryMain]) =
      { exit := Exit.returnedAfterInsertError,
        log := [DriverLog.executionRun 7, DriverLog.insertError 0],
        vmConstructed := false, executed := none } ∧
    (main (sampleEnv (InsertOutcome.rowsAffected 1) [entryOther, entryMain])).executed =
      some 1 := by
  decide

theorem addFunctionInfo_all_ok (insert : Nat → InsertOutcome) (fs : List GuestFunction) :
    ∀ (i : Nat) (log : List DriverLog),
      (∀ k, k < fs.length → insert (i + k) ≠ InsertOutcome.error) →
      addFunctionInfo insert i fs log =
        (true, log ++ (fs.enumFrom i).filterMap (wrongRowsLine insert)) := by
  induction fs with
  | nil => intro i log _; simp [addFunctionInfo]
  | cons j rest ih =>
    intro i log h
    have h0 := h 0 (by simp)
    have hrest : ∀ k, k < rest.length → insert (i + 1 + k) ≠ InsertOutcome.error := by
      intro k hk
      have := h (k + 1) (by simpa using hk)
      rwa [show i + 1 + k = i + (k + 1) by omega]
    rw [Nat.add_zero] at h0
    unfold addFunctionInfo
    cases hi : insert i with
    | error => exact absurd hi h0
    | rowsAffected numRows =>
      simp only
      by_cases hn : numRows ≠ 1
      · rw [if_pos hn, ih (i + 1) _ hrest, List.enumFrom_cons, List.filterMap_cons]
        simp [wrongRowsLine, hi, hn]
      · rw [if_neg hn, ih (i + 1) _ hrest, List.enumFrom_cons, List.filterMap_cons]
        simp [wrongRowsLine, hi, hn]

theorem addFunctionInfo_first_error (insert : Nat → InsertOutcome) (fs : List GuestFunction) :
    ∀ (i : Nat) (log : List DriverLog),
      (∃ k, k < fs.length ∧ insert (i + k) = InsertOutcome.error) →
      ∃ k, k < fs.length ∧ insert (i + k) = InsertOutcome.error ∧
        (∀ k2, k2 < k → insert (i + k2) ≠ InsertOutcome.error) ∧
        addFunctionInfo insert i fs log =
          (false, log ++ ((fs.take k).enumFrom i).filterMap (wrongRowsLine insert) ++
            [DriverLog.insertError (i + k)]) := by
  induction fs with
  | nil =>
    intro i log h
    obtain ⟨k, hk, _⟩ := h
    exact absurd hk (by simp)
  | cons j rest ih =>
    intro i log h
    cases hi : insert i with
    | error =>
      refine ⟨0, by simp, by simpa using hi, fun k2 hk2 => absurd hk2 (by simp), ?_⟩
      unfold addFunctionInfo
      simp [hi]
    | rowsAffected numRows =>
      have hrest : ∃ k, k < rest.length ∧ insert (i + 1 + k) = InsertOutcome.error := by
        obtain ⟨k, hk, he⟩ := h
        cases k with
        | zero => rw [Nat.add_zero, hi] at he; exact absurd he (by simp)
        | succ k =>
          exact ⟨k, by simpa using hk, by rwa [show i + 1 + k = i + (k + 1) by omega]⟩
      have hstep : ∀ lg, ∃ k, k < rest.length ∧ insert (i + 1 + k) = InsertOutcome.error ∧
          (∀ k2, k2 < k → insert (i + 1 + k2) ≠ InsertOutcome.error) ∧
          addFunctionInfo insert (i + 1) rest lg =
            (false, lg ++ ((rest.take k).enumFrom (i + 1)).filterMap (wrongRowsLine insert) ++
              [DriverLog.insertError (i + 1 + k)]) := fun lg => ih (i + 1) lg hrest
      by_cases hn : numRows ≠ 1
      · obtain ⟨k, hk, he, hbefore, hadd⟩ := hstep (log ++ [DriverLog.wrongRows numRows j.Name])
        refine ⟨k + 1, by simpa using hk, by rwa [show i + (k + 1) = i + 1 + k by omega],
          ?_, ?_⟩
        · intro k2 hk2
          cases k2 with
          | zero => rw [Nat.add_zero, hi]; simp
          | succ k2 =>
            have := hbefore k2 (by omega)
            rwa [show i + (k2 + 1) = i + 1 + k2 by omega]
        · unfold addFunctionInfo
          simp only [hi, if_pos hn]
          rw [hadd, List.take_succ_cons, List.enumFrom_cons, List.filterMap_cons]
          simp [wrongRowsLine, hi, hn, Nat.add_assoc, Nat.add_comm 1 k]
      · obtain ⟨k, hk, he, hbefore, hadd⟩ := hstep log
        refine ⟨k + 1, by simpa using hk, by rwa [show i + (k + 1) = i + 1 + k by omega],
          ?_, ?_⟩
        · intro k2 hk2
          cases k2 with
          | zero => rw [Nat.add_zero, hi]; simp
          | succ k2 =>
            have := hbefore k2 (by omega)
            rwa [show i + (k2 + 1) = i + 1 + k2 by omega]
        · unfold addFunctionInfo
          simp only [hi, if_neg hn]
          rw [hadd, List.take_succ_cons, List.enumFrom_cons, List.filterMap_cons]
          simp [wrongRowsLine, hi, hn, Nat.add_assoc, Nat.add_comm 1 k]

/-- What `main` does after the loop of inserts has run through without an
error, with the log `lg`. -/
theorem main_after_inserts (env : Env) (dbRun : Int) (m : GuestModule) (lg : List DriverLog)
    (hargs : env.nArgs = 2) (hfile : env.readFileOK = true) (hconn : env.connectOK = true)
    (hrun : env.runNumber = some dbRun) (hmod : env.readModule = some m)
    (hadd : addFunctionInfo env.insert 0 m.FunctionIndexSpace [DriverLog.executionRun dbRun]
      = (true, lg)) :
    (main env).log = lg ∧ (main env).vmConstructed = env.newVMOK ∧
    ∀ entries, env.newVMOK = true → m.Export = some entries →
      (main env).executed = locateMain entries := by
  unfold main
  simp only [hargs, hfile, hconn, hrun, hmod, hadd, ne_eq, not_true_eq_false, if_false,
    Bool.not_true, Bool.false_eq_true]
  cases hvm : env.newVMOK with
  | false => exact ⟨rfl, rfl, fun _ h _ => absurd h (by simp)⟩
  | true =>
    simp only [Bool.not_true, Bool.false_eq_true, if_false]
    cases hx : m.Export with
    | none => exact ⟨rfl, rfl, fun _ _ h => absurd h (by simp)⟩
    | some entries =>
      simp only
      cases hl : locateMain entries with
      | none =>
        refine ⟨rfl, rfl, fun e _ h => ?_⟩
        rw [← Option.some.inj h, hl]
      | some mainID =>
        simp only
        by_cases he : env.execCodeOK mainID = true
        · rw [if_pos he]
          refine ⟨rfl, rfl, fun e _ h => ?_⟩
          rw [← Option.some.inj h, hl]
        · rw [if_neg he]
          refine ⟨rfl, rfl, fun e _ h => ?_⟩
          rw [← Option.some.inj h, hl]

/-- C17 (as amended): in a run that has read the module, the first insert that
returns an error is logged and `main` returns at once, without constructing
the VM and without executing anything. An insert that returns no error but a
row count other than 1 is only logged: it adds its `wrongRows` line and the
loop goes on. When no insert returns an error the log is the run line and
those `wrongRows` lines, and the driver goes on to construct the VM and, once
it is constructed, to locate the entry point and execute it. -/
theorem main_insert_outcomes (env : Env) (dbRun : Int) (m : GuestModule)
    (hargs : env.nArgs = 2) (hfile : env.readFileOK = true) (hconn : env.connectOK = true)
    (hrun : env.runNumber = some dbRun) (hmod : env.readModule = some m) :
    ((∃ i, i < m.FunctionIndexSpace.length ∧ env.insert i = InsertOutcome.error) →
      ∃ k, k < m.FunctionIndexSpace.length ∧ env.insert k = InsertOutcome.error ∧
        (∀ i, i < k → env.insert i ≠ InsertOutcome.error) ∧
        main env =
          { exit := Exit.returnedAfterInsertError,
            log := [DriverLog.executionRun dbRun] ++
              ((m.FunctionIndexSpace.take k).enum).filterMap (wrongRowsLine env.insert) ++
              [DriverLog.insertError k],
            vmConstructed := false, executed := none }) ∧
    ((∀ i, i < m.FunctionIndexSpace.length → env.insert i ≠ InsertOutcome.error) →
      (main env).log = [DriverLog.executionRun dbRun] ++
        (m.FunctionIndexSpace.enum).filterMap (wrongRowsLine env.insert) ∧
      (∀ i j numRows, m.FunctionIndexSpace[i]? = some j →
        env.insert i = InsertOutcome.rowsAffected numRows → numRows ≠ 1 →
        DriverLog.wrongRows numRows j.Name ∈ (main env).log) ∧
      (main env).vmConstructed = env.newVMOK ∧
      ∀ entries, env.newVMOK = true → m.Export = some entries →
        (main env).executed = locateMain entries) := by
  constructor
  · intro h
    obtain ⟨k, hk, he, hbefore, hadd⟩ := addFunctionInfo_first_error env.insert
      m.FunctionIndexSpace 0 [DriverLog.executionRun dbRun] (by simpa using h)
    simp only [Nat.zero_add] at he hbefore hadd
    refine ⟨k, hk, he, hbefore, ?_⟩
    unfold main
    simp only [hargs, hfile, hconn, hrun, hmod, hadd, ne_eq, not_true_eq_false, if_false,
      Bool.not_true, Bool.false_eq_true]
    rfl
  · intro h
    have hadd := addFunctionInfo_all_ok env.insert m.FunctionIndexSpace 0
      [DriverLog.executionRun dbRun] (by simpa using h)
    obtain ⟨hlog, hvm, hexec⟩ := main_after_inserts env dbRun m _ hargs hfile hconn hrun hmod
      hadd
    refine ⟨hlog, ?_, hvm, hexec⟩
    intro i j numRows hj hi hn
    rw [hlog]
    apply List.mem_append_right
    rw [List.mem_filterMap]
    refine ⟨(i, j), ?_, ?_⟩
    · exact List.mk_mem_enum_iff_getElem?.mpr hj
    · simp [wrongRowsLine, hi, hn]

theorem main_insert_outcomes_witness :
    main (sampleEnv InsertOutcome.error [entryOther, entryMain]) =
      { exit := Exit.returnedAfterInsertError,
        log := [DriverLog.executionRun 7, DriverLog.insertError 0],
        vmConstructed := false, executed := none } ∧
    ((main (sampleEnv (InsertOutcome.rowsAffected 2) [entryOther, entryMain])).log =
        [DriverLog.executionRun 7, DriverLog.wrongRows 2 (lit "memory_size"),
          DriverLog.wrongRows 2 (lit "main"), DriverLog.wrongRows 2 (lit "cwa_main")] ∧
      (main (sampleEnv (InsertOutcome.rowsAffected 2) [entryOther, entryMain])).vmConstructed =
        true ∧
      (main (sampleEnv (InsertOutcome.rowsAffected 2) [entryOther, entryMain])).executed =
        some 1) := by
  obtain ⟨k, _, _, hbefore, h1⟩ :=
    (main_insert_outcomes (sampleEnv InsertOutcome.error [entryOther, entryMain]) 7
      _ rfl rfl rfl rfl rfl).1 ⟨0, by decide, rfl⟩
  have hk : k = 0 := by
    rcases Nat.eq_zero_or_pos k with h0 | h0
    · exact h0
    · exact absurd rfl (hbefore 0 h0)
  subst hk
  have h2 := (main_insert_outcomes
    (sampleEnv (InsertOutcome.rowsAffected 2) [entryOther, entryMain]) 7
    _ rfl rfl rfl rfl rfl).2 (fun i _ => by simp [sampleEnv])
  exact ⟨h1, h2.1, h2.2.2.1, h2.2.2.2 [entryOther, entryMain] rfl rfl⟩

theorem isEntry_iff (p : GoString × ExportEntry) :
    isEntry p.1 p.2 = true ↔ exportNamed (lit "main") p ∨ exportNamed (lit "cwa_main") p := by
  simp [isEntry, exportNamed]

theorem isEntry_false_iff (p : GoString × ExportEntry) :
    isEntry p.1 p.2 = false ↔
      ¬ (exportNamed (lit "main") p ∨ exportNamed (lit "cwa_main") p) := by
  rw [← isEntry_iff]
  simp

/-- C18: in a run that reaches the entry-point loop, if the export table has an
export named `main` or one named `cwa_main`, the index `vm.ExecCode` is called
with is the `Index` of such an export; if it has neither, `main` panics with
"no main function found" and `vm.ExecCode` is never called. -/
theorem main_entry_point (env : Env) (entries : List (GoString × ExportEntry))
    (h : env.reachesEntry entries) :
    ((∃ p ∈ entries, exportNamed (lit "main") p ∨ exportNamed (lit "cwa_main") p) →
      ∃ p ∈ entries, (exportNamed (lit "main") p ∨ exportNamed (lit "cwa_main") p) ∧
        (main env).executed = some p.2.Index) ∧
    ((¬ ∃ p ∈ entries, exportNamed (lit "main") p ∨ exportNamed (lit "cwa_main") p) →
      (main env).exit = Exit.panicNoMain ∧ (main env).executed = none) := by
  obtain ⟨_, hexec, hnone⟩ := main_of_reachesEntry env entries h
  constructor
  · rintro ⟨p, hp, hn⟩
    cases hl : locateMain entries with
    | none =>
      have := (locateMain_none entries).mp hl p hp
      exact absurd hn ((isEntry_false_iff p).mp this)
    | some mainID =>
      obtain ⟨q, hq, h1, h2⟩ := locateMain_some entries mainID hl
      exact ⟨q, hq, (isEntry_iff q).mp h1, by rw [hexec, hl, h2]⟩
  · intro hno
    have hl : locateMain entries = none := by
      rw [locateMain_none]
      intro p hp
      exact (isEntry_false_iff p).mpr (fun hn => hno ⟨p, hp, hn⟩)
    exact ⟨hnone hl, by rw [hexec, hl]⟩

theorem main_entry_point_witness :
    (∃ p ∈ [entryOther, entryCwaMain],
      (exportNamed (lit "main") p ∨ exportNamed (lit "cwa_main") p) ∧
      (main (sampleEnv (InsertOutcome.rowsAffected 1) [entryOther, entryCwaMain])).executed =
        some p.2.Index) ∧
    ((main (sampleEnv (InsertOutcome.rowsAffected 1) [entryOther])).exit = Exit.panicNoMain ∧
      (main (sampleEnv (InsertOutcome.rowsAffected 1) [entryOther])).executed = none) :=
  ⟨(main_entry_point (sampleEnv (InsertOutcome.rowsAffected 1) [entryOther, entryCwaMain])
      [entryOther, entryCwaMain]
      ⟨rfl, rfl, rfl, 7, _, rfl, rfl, fun i _ => by simp [sampleEnv], rfl, rfl⟩).1
      ⟨entryCwaMain, by simp, Or.inr ⟨rfl, rfl⟩⟩,
    (main_entry_point (sampleEnv (InsertOutcome.rowsAffected 1) [entryOther]) [entryOther]
      ⟨rfl, rfl, rfl, 7, _, rfl, rfl, fun i _ => by simp [sampleEnv], rfl, rfl⟩).2
      (by
        rintro ⟨p, hp, hn⟩
        have hp' : p = entryOther := by simpa using hp
        subst hp'
        exact absurd ((isEntry_iff entryOther).mpr hn) (by decide))⟩

/-- C19 (counterexample): one export table with both `main` (index 1) and
`cwa_main` (index 2), visited in two orders. When the loop meets `cwa_main`
first it selects index 2, although `main` is exported. -/
theorem main_selects_cwa_main_before_main :
    [entryCwaMain, entryMain].Perm [entryMain, entryCwaMain] ∧
    (main (sampleEnv (InsertOutcome.rowsAffected 1) [entryMain, entryCwaMain])).executed =
      some 1 ∧
    (main (sampleEnv (InsertOutcome.rowsAffected 1) [entryCwaMain, entryMain])).executed =
      some 2 ∧
    exportNamed (lit "main") entryMain ∧ entryMain.2.Index = 1 :=
  ⟨List.Perm.swap _ _ _, by decide, by decide, ⟨rfl, rfl⟩, rfl⟩

/-- C19 (as amended): the two entry names have the same standing. In a run that
reaches the entry-point loop, the entry point selected is the `Index` of the
first export named `main` or `cwa_main` that the iteration over the export map
visits: of `cwa_main` when it is visited before `main`, of `main` when `main`
is visited first or `cwa_main` is not exported. -/
theorem main_selects_first_visited (env : Env) (pre post : List (GoString × ExportEntry))
    (p : GoString × ExportEntry)
    (h : env.reachesEntry (pre ++ p :: post))
    (hpre : ∀ q ∈ pre, ¬ (exportNamed (lit "main") q ∨ exportNamed (lit "cwa_main") q))
    (hp : exportNamed (lit "main") p ∨ exportNamed (lit "cwa_main") p) :
    (main env).executed = some p.2.Index := by
  obtain ⟨_, hexec, _⟩ := main_of_reachesEntry env (pre ++ p :: post) h
  rw [hexec]
  exact locateMain_first pre post p.1 p.2
    (fun q hq => (isEntry_false_iff q).mpr (hpre q hq)) ((isEntry_iff p).mpr hp)

theorem main_selects_first_visited_witness :
    (main (sampleEnv (InsertOutcome.rowsAffected 1)
      ([entryOther] ++ entryCwaMain :: [entryMain]))).executed = some entryCwaMain.2.Index :=
  main_selects_first_visited
    (sampleEnv (InsertOutcome.rowsAffected 1) ([entryOther] ++ entryCwaMain :: [entryMain]))
    [entryOther] [entryMain] entryCwaMain
    ⟨rfl, rfl, rfl, 7, _, rfl, rfl, fun i _ => by simp [sampleEnv], rfl, rfl⟩
    (by
      intro q hq hn
      have hq' : q = entryOther := by simpa using hq
      subst hq'
      exact absurd ((isEntry_iff entryOther).mpr hn) (by decide))
    (Or.inr ⟨rfl, rfl⟩)

/-! ### `syscallJSValueGet`: effect on the reference table -/

/-- Repeated `newJSRef` calls leave the guest memory alone. -/
theorem runCalls_replicate_newJSRef_mem (name : GoString) (jsType : Int) (parent : Nat)
    (n : Nat) :
    ∀ w w' : World,
      runCalls w (List.replicate n (Call.newJSRef name jsType parent)) = some w' →
      w'.mem = w.mem := by
  induction n with
  | zero =>
    intro w w' h
    simp only [List.replicate_zero, runCalls, Option.some.injEq] at h
    rw [← h]
  | succ n ih =>
    intro w w' h
    rw [List.replicate_succ, runCalls, Call.exec, Option.some_bind] at h
    exact ih (newJSRef w name jsType parent).1 w' h

/-- C20 (counterexample): after 4294967287 `newJSRef` calls on the initial
table `highestRef` is `2^32 - 1`; the `syscallJSValueGet` call that follows
stores its entry under that id and leaves `highestRef` at 0, not one higher. -/
theorem syscallJSValueGet_highestRef_wraps :
    ∃ w w',
      runCalls (World.init globalMem)
        (List.replicate 4294967287 (Call.newJSRef [] 0 0)) = some w ∧
      w.highestRef = 4294967295 ∧
      syscallJSValueGet w 13 0 8 5 0 0 = some w' ∧
      (w'.jsRefs 4294967295).isSome = true ∧
      w'.highestRef = 0 ∧ w'.highestRef ≠ w.highestRef + 1 := by
  obtain ⟨w, h1, h2, _⟩ := runCalls_replicate_newJSRef [] 0 0 4294967287
    (World.init globalMem) (by decide)
  have hmem : w.mem = globalMem :=
    runCalls_replicate_newJSRef_mem [] 0 0 4294967287 (World.init globalMem) w h1
  have hh : w.highestRef = 4294967295 := h2
  have hok := syscallJSValueGet_ok w 13 0 8 5 0 0 (by decide) (by decide)
    (by rw [hmem]; decide) (by decide) (by rw [hmem]; decide) (by decide)
    (by rw [hmem]; decide)
  refine ⟨w, _, h1, hh, hok, ?_, ?_, ?_⟩
  · simp [hh]
  · simp [hh]
  · simp [hh]

/-- The two renderings of `syscallJSValueGet` agree on the calls that return. -/
theorem syscallJSValueGetEnd_toOption (w : World)
    (returnPtr valueAddrPtr propertyNamePtr propertyNameLen paramE paramF : Int) :
    syscallJSValueGet w returnPtr valueAddrPtr propertyNamePtr propertyNameLen paramE paramF =
      (syscallJSValueGetEnd w returnPtr valueAddrPtr propertyNamePtr propertyNameLen
        paramE paramF).toOption := by
  have m8 : make 8 = some (List.replicate 8 0) := rfl
  unfold syscallJSValueGet syscallJSValueGetEnd
  cases hm : make propertyNameLen with
  | none => rfl
  | some p0 =>
    simp only [Option.bind_eq_bind, Option.some_bind]
    cases hr1 : readAt w.mem p0 propertyNamePtr with
    | none => rfl
    | some r1 =>
      obtain ⟨p, n1, e1⟩ := r1
      simp only [Option.some_bind, m8]
      cases hr2 : readAt (if e1 = true then logPrint w LogEntry.readError else w).mem
          (List.replicate 8 0) valueAddrPtr with
      | none => rfl
      | some r2 =>
        obtain ⟨b, n2, e2⟩ := r2
        simp only [Option.some_bind, newJSRef]
        cases hr3 : writeAt
            (if e2 = true then
              logPrint (if e1 = true then logPrint w LogEntry.readError else w)
                LogEntry.readError
            else (if e1 = true then logPrint w LogEntry.readError else w)).mem
            (PutUint64 (encodeVal (valTypeOf (uint32 (Uint64 b)) p)
              (if e2 = true then
                logPrint (if e1 = true then logPrint w LogEntry.readError else w)
                  LogEntry.readError
              else (if e1 = true then logPrint w LogEntry.readError else w)).highestRef))
            returnPtr with
        | none => rfl
        | some r3 =>
          obtain ⟨mem, n3, e3⟩ := r3
          rfl

/-- What a call whose two reads are in range leaves behind, whatever becomes of
its write: the state after `newJSRef`, with the memory the write has changed
when it does not panic. -/
theorem syscallJSValueGetEnd_reads_ok (w : World)
    (returnPtr valueAddrPtr propertyNamePtr propertyNameLen paramE paramF : Int)
    (hlen : 0 ≤ propertyNameLen) (hname0 : 0 ≤ propertyNamePtr)
    (hname : propertyNamePtr + propertyNameLen ≤ w.mem.length)
    (hval0 : 0 ≤ valueAddrPtr) (hval : valueAddrPtr + 8 ≤ w.mem.length) :
    (syscallJSValueGetEnd w returnPtr valueAddrPtr propertyNamePtr propertyNameLen
        paramE paramF).world.jsRefs =
      (newJSRef w (nameAt w.mem propertyNamePtr propertyNameLen)
        (valTypeOf (decodeID (valRawAt w.mem valueAddrPtr))
          (nameAt w.mem propertyNamePtr propertyNameLen))
        (decodeID (valRawAt w.mem valueAddrPtr))).1.jsRefs ∧
    (syscallJSValueGetEnd w returnPtr valueAddrPtr propertyNamePtr propertyNameLen
        paramE paramF).world.highestRef = (w.highestRef + 1) % 2 ^ 32 := by
  have hl : (propertyNameLen.toNat : Int) = propertyNameLen := Int.toNat_of_nonneg hlen
  have r1 := readAt_ok w.mem (List.replicate propertyNameLen.toNat 0) propertyNamePtr hname0
    (by simpa [hl] using hname)
  have m8 : make 8 = some (List.replicate 8 0) := rfl
  have r2 := readAt_ok w.mem (List.replicate 8 0) valueAddrPtr hval0 (by simpa using hval)
  simp only [List.length_replicate] at r1 r2
  simp only [syscallJSValueGetEnd, make_of_nonneg _ hlen, m8, r1, r2, Bool.false_eq_true,
    if_false, nameAt, valRawAt, decodeID]
  cases hr3 : writeAt (newJSRef w
      (List.take propertyNameLen.toNat (List.drop propertyNamePtr.toNat w.mem))
      (valTypeOf (uint32 (Uint64 (List.take 8 (List.drop valueAddrPtr.toNat w.mem))))
        (List.take propertyNameLen.toNat (List.drop propertyNamePtr.toNat w.mem)))
      (uint32 (Uint64 (List.take 8 (List.drop valueAddrPtr.toNat w.mem))))).1.mem
      (PutUint64 (encodeVal
        (valTypeOf (uint32 (Uint64 (List.take 8 (List.drop valueAddrPtr.toNat w.mem))))
          (List.take propertyNameLen.toNat (List.drop propertyNamePtr.toNat w.mem)))
        (newJSRef w
          (List.take propertyNameLen.toNat (List.drop propertyNamePtr.toNat w.mem))
          (valTypeOf (uint32 (Uint64 (List.take 8 (List.drop valueAddrPtr.toNat w.mem))))
            (List.take propertyNameLen.toNat (List.drop propertyNamePtr.toNat w.mem)))
          (uint32 (Uint64 (List.take 8 (List.drop valueAddrPtr.toNat w.mem))))).2.1))
      returnPtr with
  | none => exact ⟨rfl, rfl⟩
  | some r3 =>
    obtain ⟨mem, n3, e3⟩ := r3
    cases e3 <;> exact ⟨rfl, rfl⟩

/-- C20 (as amended): in a state whose `highestRef` is below `2^32 - 1`, a
`syscallJSValueGet` call whose memory reads succeed adds exactly one entry to
the reference table, whether its write succeeds, is short or panics: the
entry is stored under the old `highestRef`, its `Name` is the
`propertyNameLen` bytes at `propertyNamePtr`, its `Parent` the low 32 bits of
the little-endian 64-bit value at `valueAddrPtr`; every other entry is
unchanged and `highestRef` grows by exactly one. When the write fits, the
call returns and the id it has written back is that old `highestRef`. -/
theorem syscallJSValueGet_adds_one_entry (w : World)
    (returnPtr valueAddrPtr propertyNamePtr propertyNameLen paramE paramF : Int)
    (hw : w.highestRef < 2 ^ 32 - 1)
    (hlen : 0 ≤ propertyNameLen) (hname0 : 0 ≤ propertyNamePtr)
    (hname : propertyNamePtr + propertyNameLen ≤ w.mem.length)
    (hval0 : 0 ≤ valueAddrPtr) (hval : valueAddrPtr + 8 ≤ w.mem.length) :
    (∃ r, (syscallJSValueGetEnd w returnPtr valueAddrPtr propertyNamePtr propertyNameLen
        paramE paramF).world.jsRefs w.highestRef = some r ∧
      r.Name = (w.mem.drop propertyNamePtr.toNat).take propertyNameLen.toNat ∧
      r.Parent = Uint64 ((w.mem.drop valueAddrPtr.toNat).take 8) % 2 ^ 32) ∧
    (∀ k, k ≠ w.highestRef →
      (syscallJSValueGetEnd w returnPtr valueAddrPtr propertyNamePtr propertyNameLen
        paramE paramF).world.jsRefs k = w.jsRefs k) ∧
    (syscallJSValueGetEnd w returnPtr valueAddrPtr propertyNamePtr propertyNameLen
        paramE paramF).world.highestRef = w.highestRef + 1 ∧
    (0 ≤ returnPtr ∧ returnPtr + 8 ≤ w.mem.length →
      ∃ w', syscallJSValueGet w returnPtr valueAddrPtr propertyNamePtr propertyNameLen
          paramE paramF = some w' ∧
        syscallJSValueGetEnd w returnPtr valueAddrPtr propertyNamePtr propertyNameLen
          paramE paramF = CallEnd.returned w' ∧
        Uint64 (bytesAt w'.mem returnPtr) % 2 ^ 32 = w.highestRef) := by
  obtain ⟨hrefs, hh⟩ := syscallJSValueGetEnd_reads_ok w returnPtr valueAddrPtr
    propertyNamePtr propertyNameLen paramE paramF hlen hname0 hname hval0 hval
  refine ⟨⟨_, by rw [hrefs]; exact if_pos rfl, rfl, rfl⟩, ?_, ?_, ?_⟩
  · intro k hk
    rw [hrefs]
    exact if_neg hk
  · rw [hh]
    omega
  · rintro ⟨hret0, hret⟩
    have hok := syscallJSValueGet_ok w returnPtr valueAddrPtr propertyNamePtr propertyNameLen
      paramE paramF hlen hname0 hname hval0 hval hret0 hret
    have hend := syscallJSValueGetEnd_toOption w returnPtr valueAddrPtr propertyNamePtr
      propertyNameLen paramE paramF
    rw [hok] at hend
    refine ⟨_, hok, ?_, ?_⟩
    · cases he : syscallJSValueGetEnd w returnPtr valueAddrPtr propertyNamePtr
        propertyNameLen paramE paramF with
      | returned w2 =>
        rw [he] at hend
        simp only [CallEnd.toOption, Option.some.injEq] at hend
        rw [hend]
      | panicked w2 =>
        rw [he] at hend
        simp [CallEnd.toOption] at hend
    · have hv := encodeVal_valTypeOf (decodeID (valRawAt w.mem valueAddrPtr))
        (nameAt w.mem propertyNamePtr propertyNameLen) w.highestRef (by omega)
      have hb : bytesAt (w.mem.take returnPtr.toNat ++
          PutUint64 (encodeVal (valTypeOf (decodeID (valRawAt w.mem valueAddrPtr))
            (nameAt w.mem propertyNamePtr propertyNameLen)) w.highestRef) ++
          w.mem.drop (returnPtr.toNat + 8)) returnPtr =
          PutUint64 (encodeVal (valTypeOf (decodeID (valRawAt w.mem valueAddrPtr))
            (nameAt w.mem propertyNamePtr propertyNameLen)) w.highestRef) :=
        written_bytes w.mem (PutUint64 _) returnPtr.toNat (by omega)
      show Uint64 (bytesAt (_ ++ _ ++ _) returnPtr) % 2 ^ 32 = _
      rw [hb, Uint64_PutUint64, Nat.mod_eq_of_lt hv.1]
      exact hv.2.1

theorem syscallJSValueGet_adds_one_entry_witness :
    syscallJSValueGet (World.init globalMem) 22 0 8 5 0 0 = none ∧
    (∃ r, (syscallJSValueGetEnd (World.init globalMem) 22 0 8 5 0 0).world.jsRefs 8 = some r ∧
      r.Name = lit "Array" ∧ r.Parent = 5) ∧
    (syscallJSValueGetEnd (World.init globalMem) 22 0 8 5 0 0).world.highestRef = 9 := by
  have h := syscallJSValueGet_adds_one_entry (World.init globalMem) 22 0 8 5 0 0
    (by decide) (by decide) (by decide) (by decide) (by decide) (by decide)
  obtain ⟨⟨r, h1, h2, h3⟩, _, h5, _⟩ := h
  exact ⟨rfl, ⟨r, h1, h2.trans (by decide), h3.trans (by decide)⟩, h5⟩

end WASiM
